import Mathlib

/-
Verification development for the hedge-betting arbitrage engine
(hedge-backend: hedge_calculator.py, three_way_hedge_calculator.py,
hedge_type_analyzer.py, market_matcher.py).

Numeric model: Python floats are embedded as exact rationals.
Fallible Python code (functions that can raise ZeroDivisionError) is
embedded with an explicit Except error channel; functions that return
None on invalid input return Option.none.
-/

/-
Python round(x, 2) is modelled as round-half-to-even at two decimal
places over the exact rationals.
-/
def roundHalfEven (x : ℚ) : ℤ :=
  let f := ⌊x⌋
  let r := x - (f : ℚ)
  if r < 1/2 then f
  else if 1/2 < r then f + 1
  else if f % 2 = 0 then f else f + 1

def round2 (x : ℚ) : ℚ := (roundHalfEven (x * 100) : ℚ) / 100

/-
Dictionary returned by HedgeCalculator.calculate_hedge
(hedge_calculator.py lines 87-94).
-/
structure HedgeResult where
  lay_stake : ℚ
  lay_liability : ℚ
  profit_if_back_wins : ℚ
  profit_if_lay_wins : ℚ
  profit : ℚ
  profit_percentage : ℚ
deriving DecidableEq

/-
HedgeCalculator.calculate_hedge (hedge_calculator.py lines 47-94).

The odds arguments are Option values: Python callers can pass None, and
the guard on line 64 tests truthiness (None and 0.0 are both falsy)
before the numeric comparisons.  The division (profit / stake) on line 85
is unguarded in the source; stake = 0 therefore raises ZeroDivisionError,
modelled as the Except.error branch.
-/
def calculate_hedge (back_odds lay_odds : Option ℚ)
    (stake back_commission lay_commission : ℚ) :
    Except String (Option HedgeResult) :=
  -- line 64: if not back_odds or not lay_odds or back_odds <= 0
  --          or lay_odds <= 0 or lay_odds <= 1: return None
  if back_odds = none ∨ back_odds = some 0 ∨ lay_odds = none ∨ lay_odds = some 0 ∨
     back_odds.getD 0 ≤ 0 ∨ lay_odds.getD 0 ≤ 0 ∨ lay_odds.getD 0 ≤ 1 then
    Except.ok none
  else
    let bo := back_odds.getD 0
    let lo := lay_odds.getD 0
    let back_winnings := stake * (bo - 1) * (1 - back_commission)
    let lay_stake := stake * bo / lo
    let lay_liability := lay_stake * (lo - 1)
    let profit_if_back_wins := back_winnings - lay_liability
    let profit_if_lay_wins := lay_stake * (1 - lay_commission) - stake
    let profit := min profit_if_back_wins profit_if_lay_wins
    if stake = 0 then
      Except.error "ZeroDivisionError: float division by zero"
    else
      let profit_percentage := profit / stake * 100
      Except.ok (some {
        lay_stake := round2 lay_stake,
        lay_liability := round2 lay_liability,
        profit_if_back_wins := round2 profit_if_back_wins,
        profit_if_lay_wins := round2 profit_if_lay_wins,
        profit := round2 profit,
        profit_percentage := round2 profit_percentage })

/-
HedgeCalculator.calculate_bookmaker_hedge (hedge_calculator.py
lines 96-110): the same formula specialised to back commission 0.
-/
def calculate_bookmaker_hedge (bookmaker_odds exchange_lay_odds : Option ℚ)
    (stake exchange_commission : ℚ) : Except String (Option HedgeResult) :=
  calculate_hedge bookmaker_odds exchange_lay_odds stake 0 exchange_commission

/-
ThreeWayHedgeCalculator._calculate_implied_probability
(three_way_hedge_calculator.py lines 53-63).
-/
def _calculate_implied_probability (decimal_odds : ℚ) : ℚ := 1 / decimal_odds

/-
Intermediate quantities of ThreeWayHedgeCalculator._optimize_three_way_stakes
(three_way_hedge_calculator.py lines 157-220), named so the per-outcome
profit algebra can be stated directly.  Arguments are
(base_stake, back_odds, lay_odds1, lay_odds2).
-/
def tw_prob_sum (bo lo1 lo2 : ℚ) : ℚ :=
  _calculate_implied_probability bo + _calculate_implied_probability lo1 +
    _calculate_implied_probability lo2

def tw_back_stake (base bo lo1 lo2 : ℚ) : ℚ :=
  base * (_calculate_implied_probability bo / tw_prob_sum bo lo1 lo2)

def tw_back_return (base bo lo1 lo2 : ℚ) : ℚ :=
  tw_back_stake base bo lo1 lo2 * bo

def tw_lay_stake1 (base bo lo1 lo2 : ℚ) : ℚ :=
  tw_back_return base bo lo1 lo2 / lo1

def tw_lay_stake2 (base bo lo1 lo2 : ℚ) : ℚ :=
  tw_back_return base bo lo1 lo2 / lo2

def tw_profit_if_back_wins (base bo lo1 lo2 : ℚ) : ℚ :=
  tw_back_stake base bo lo1 lo2 * (bo - 1) -
    tw_lay_stake1 base bo lo1 lo2 * (lo1 - 1) -
    tw_lay_stake2 base bo lo1 lo2 * (lo2 - 1)

def tw_profit_if_lay1_wins (base bo lo1 lo2 : ℚ) : ℚ :=
  tw_lay_stake1 base bo lo1 lo2 - tw_back_stake base bo lo1 lo2 -
    tw_lay_stake2 base bo lo1 lo2 * (lo2 - 1)

def tw_profit_if_lay2_wins (base bo lo1 lo2 : ℚ) : ℚ :=
  tw_lay_stake2 base bo lo1 lo2 - tw_back_stake base bo lo1 lo2 -
    tw_lay_stake1 base bo lo1 lo2 * (lo1 - 1)

/-
Commission adjustment (three_way_hedge_calculator.py lines 216-220):
commission applies only to the winning lay scenarios.
-/
def tw_profit_if_back_wins_adj (base bo lo1 lo2 _comm : ℚ) : ℚ :=
  tw_profit_if_back_wins base bo lo1 lo2

def tw_profit_if_lay1_wins_adj (base bo lo1 lo2 comm : ℚ) : ℚ :=
  tw_profit_if_lay1_wins base bo lo1 lo2 * (1 - comm)

def tw_profit_if_lay2_wins_adj (base bo lo1 lo2 comm : ℚ) : ℚ :=
  tw_profit_if_lay2_wins base bo lo1 lo2 * (1 - comm)

/-
Result dataclass ThreeWayHedgeResult (three_way_hedge_calculator.py
lines 14-32); profit_by_outcome is the selection-keyed profit dictionary.
-/
structure ThreeWayHedgeResult where
  profitable : Bool
  back_selection : String
  back_odds : ℚ
  back_stake : ℚ
  lay_selection1 : String
  lay_odds1 : ℚ
  lay_stake1 : ℚ
  lay_selection2 : String
  lay_odds2 : ℚ
  lay_stake2 : ℚ
  profit : ℚ
  roi : ℚ
  total_stake : ℚ
  implied_probability_sum : ℚ
  overround : ℚ
  profit_by_outcome : List (String × ℚ)
deriving DecidableEq

/-
ThreeWayHedgeCalculator._optimize_three_way_stakes
(three_way_hedge_calculator.py lines 134-256).  Divisions by zero raise
ZeroDivisionError in the source (caught by the caller); they are the
Except.error branches here, placed exactly where the source divides.
-/
def optimize_three_way_stakes (exchange_commission base_stake : ℚ)
    (back_selection : String) (back_odds : ℚ)
    (lay_selection1 : String) (lay_odds1 : ℚ)
    (lay_selection2 : String) (lay_odds2 : ℚ) :
    Except String (Option ThreeWayHedgeResult) :=
  if back_odds = 0 then Except.error "ZeroDivisionError: division by zero"
  else if lay_odds1 = 0 then Except.error "ZeroDivisionError: division by zero"
  else if lay_odds2 = 0 then Except.error "ZeroDivisionError: division by zero"
  else
    let prob_sum := tw_prob_sum back_odds lay_odds1 lay_odds2
    let overround := prob_sum - 1
    -- line 167: if prob_sum > 1.03: return None
    if 103/100 < prob_sum then Except.ok none
    else if prob_sum = 0 then
      Except.error "ZeroDivisionError: division by zero"
    else
      let back_stake := tw_back_stake base_stake back_odds lay_odds1 lay_odds2
      let lay_stake1 := tw_lay_stake1 base_stake back_odds lay_odds1 lay_odds2
      let lay_stake2 := tw_lay_stake2 base_stake back_odds lay_odds1 lay_odds2
      let pb := tw_profit_if_back_wins_adj base_stake back_odds lay_odds1
        lay_odds2 exchange_commission
      let p1 := tw_profit_if_lay1_wins_adj base_stake back_odds lay_odds1
        lay_odds2 exchange_commission
      let p2 := tw_profit_if_lay2_wins_adj base_stake back_odds lay_odds1
        lay_odds2 exchange_commission
      let min_profit := min pb (min p1 p2)
      -- line 226: if min_profit <= 0: return None
      if min_profit ≤ 0 then Except.ok none
      else
        let total_stake := back_stake + lay_stake1 * (lay_odds1 - 1) +
          lay_stake2 * (lay_odds2 - 1)
        if total_stake = 0 then
          Except.error "ZeroDivisionError: division by zero"
        else
          let roi := min_profit / total_stake * 100
          Except.ok (some {
            profitable := true,
            back_selection := back_selection,
            back_odds := back_odds,
            back_stake := back_stake,
            lay_selection1 := lay_selection1,
            lay_odds1 := lay_odds1,
            lay_stake1 := lay_stake1,
            lay_selection2 := lay_selection2,
            lay_odds2 := lay_odds2,
            lay_stake2 := lay_stake2,
            profit := min_profit,
            roi := roi,
            total_stake := total_stake,
            implied_probability_sum := prob_sum,
            overround := overround,
            profit_by_outcome := [(back_selection, pb), (lay_selection1, p1),
              (lay_selection2, p2)] })

/-
Loop body of ThreeWayHedgeCalculator.calculate_three_way_hedge
(three_way_hedge_calculator.py lines 111-130): keep a candidate only if
it is profitable and strictly beats the best profit so far (initially 0);
a raised exception (Except.error) is caught and skipped.
-/
def tw_step (best : Option ThreeWayHedgeResult × ℚ)
    (cand : Except String (Option ThreeWayHedgeResult)) :
    Option ThreeWayHedgeResult × ℚ :=
  match cand with
  | Except.ok (some res) =>
      if res.profitable = true ∧ best.2 < res.profit then (some res, res.profit)
      else best
  | _ => best

/-
ThreeWayHedgeCalculator.calculate_three_way_hedge
(three_way_hedge_calculator.py lines 80-132): requires exactly three
selections, rejects any odds value at most 1, then tries backing each
outcome (laying the other two, in index order) and keeps the best.
-/
def calculate_three_way_hedge (exchange_commission : ℚ)
    (selection_names : List String) (back_odds lay_odds : List ℚ)
    (base_stake : ℚ) : Option ThreeWayHedgeResult :=
  match selection_names, back_odds, lay_odds with
  | [n0, n1, n2], [b0, b1, b2], [l0, l1, l2] =>
    if b0 ≤ 1 ∨ b1 ≤ 1 ∨ b2 ≤ 1 ∨ l0 ≤ 1 ∨ l1 ≤ 1 ∨ l2 ≤ 1 then none
    else
      (List.foldl tw_step ((none : Option ThreeWayHedgeResult), (0:ℚ))
        [optimize_three_way_stakes exchange_commission base_stake n0 b0 n1 l1 n2 l2,
         optimize_three_way_stakes exchange_commission base_stake n1 b1 n0 l0 n2 l2,
         optimize_three_way_stakes exchange_commission base_stake n2 b2 n0 l0 n1 l1]).1
  | _, _, _ => none

/-
Concrete three-way market used to witness claim C4: back odds
[100, 2, 200/103] and lay odds [100, 2, 200/103]; only the choice that
backs the first outcome survives (implied probability sum 41/40).
-/
def tw_demo_result : ThreeWayHedgeResult := {
  profitable := true,
  back_selection := "Home",
  back_odds := 100,
  back_stake := 40/41,
  lay_selection1 := "Draw",
  lay_odds1 := 2,
  lay_stake1 := 2000/41,
  lay_selection2 := "Away",
  lay_odds2 := 200/103,
  lay_stake2 := 2060/41,
  profit := 20/41,
  roi := 100/199,
  total_stake := 3980/41,
  implied_probability_sum := 41/40,
  overround := 1/40,
  profit_by_outcome := [("Home", 20/41), ("Draw", 20/41), ("Away", 20/41)] }

/-
Common market data shapes consumed by the scan and analysis methods.
A runner dictionary may lack any key, so every field is optional;
odds dictionaries expose the keys actually read by the analyzers.
-/
structure Runner where
  selection_id : Option String
  runner_name : Option String
  best_back_price : Option ℚ
  best_lay_price : Option ℚ
  back_odds : Option ℚ
deriving DecidableEq

instance : Inhabited Runner := ⟨⟨none, none, none, none, none⟩⟩

structure OddsData where
  event_name : Option String
  bookmaker : Option String
  back_exchange : Option String
  runners : List Runner
deriving DecidableEq

structure EventInfo where
  event_name : Option String
deriving DecidableEq

/-
HedgeType enum (hedge_type_analyzer.py lines 10-16).
-/
inductive HedgeType where
  | exchange_internal
  | cross_exchange
  | bookmaker_exchange
  | bookmaker_bookmaker
  | multi_leg
deriving DecidableEq

/-
HedgeOpportunity dataclass (hedge_calculator.py lines 7-27).
Selection ids come from dictionary lookups and may be None.
-/
structure HedgeOpportunity where
  event_name : String
  runner_name : String
  back_exchange : String
  lay_exchange : String
  back_odds : ℚ
  lay_odds : ℚ
  stake : ℚ
  lay_stake : ℚ
  profit : ℚ
  profit_percentage : ℚ
  back_market_id : String
  lay_market_id : String
  back_selection_id : Option String
  lay_selection_id : Option String
  back_commission : ℚ
  lay_commission : ℚ
  back_platform : String
  lay_platform : String
deriving DecidableEq

/-
EnhancedHedgeOpportunity dataclass (hedge_type_analyzer.py lines 18-27).
-/
structure EnhancedHedgeOpportunity where
  event_name : String
  runner_name : String
  back_exchange : String
  lay_exchange : String
  back_odds : ℚ
  lay_odds : ℚ
  stake : ℚ
  lay_stake : ℚ
  profit : ℚ
  profit_percentage : ℚ
  back_market_id : String
  lay_market_id : String
  back_selection_id : Option String
  lay_selection_id : Option String
  back_commission : ℚ
  lay_commission : ℚ
  back_platform : String
  lay_platform : String
  hedge_type : HedgeType
  is_multi_leg : Bool
  leg_count : ℕ
  opposing_selections : Option (List (Option String × ℚ × ℚ))
  total_liability : ℚ
  max_return : ℚ
  min_profit : ℚ
deriving DecidableEq

/-
Class-level commission constants (hedge_calculator.py lines 35-36); the
HedgeTypeAnalyzer methods read these constants, while the
HedgeCalculator scan methods read the instance attributes (modelled as
parameters of the scan functions).
-/
def BETFAIR_COMMISSION : ℚ := 5/100

def SMARKETS_COMMISSION : ℚ := 2/100

/-
Python str.lower over the string data.
-/
def py_lower (s : String) : String := String.mk (s.data.map Char.toLower)

/-
Dictionary comprehension {runner.get("selection_id"): runner for runner
in runners} followed by .get(key): the last runner with a given id wins.
-/
def runners_by_id (runners : List Runner) (key : Option String) : Option Runner :=
  runners.reverse.find? (fun r => decide (r.selection_id = key))

/-
Loop skeleton shared by all scan methods: iterate, skip rejected pairs,
append emitted opportunities in iteration order, propagate a raised
exception.
-/
def collect_pairs {α β : Type} (f : α → Except String (Option β)) :
    List α → Except String (List β)
  | [] => Except.ok []
  | x :: rest =>
    match f x with
    | Except.error e => Except.error e
    | Except.ok none => collect_pairs f rest
    | Except.ok (some y) =>
      match collect_pairs f rest with
      | Except.error e => Except.error e
      | Except.ok l => Except.ok (y :: l)

/-
Loop body of HedgeTypeAnalyzer.analyze_bookmaker_bookmaker
(hedge_type_analyzer.py lines 350-412): classic two-way arbitrage between
opposing back prices at two bookmakers.  The profit_percentage division
happens before the profitability test, so stake = 0 raises.
-/
def analyze_bookmaker_bookmaker_pair (bookmaker1_odds bookmaker2_odds : OddsData)
    (bookmaker1_market_id bookmaker2_market_id : String) (stake : ℚ)
    (pair : Option String × Option String) :
    Except String (Option EnhancedHedgeOpportunity) :=
  match runners_by_id bookmaker1_odds.runners pair.1,
        runners_by_id bookmaker2_odds.runners pair.2 with
  | some bm1_runner, some bm2_runner =>
    match bm1_runner.back_odds, bm2_runner.back_odds with
    | some bm1_odds, some bm2_odds =>
      if bm1_odds ≠ 0 ∧ bm2_odds ≠ 0 ∧ 0 < bm1_odds ∧ 0 < bm2_odds then
        let total_stake := stake
        let bm1_stake := total_stake * bm2_odds / (bm1_odds + bm2_odds)
        let bm2_stake := total_stake - bm1_stake
        let bm1_return := bm1_stake * bm1_odds
        let bm2_return := bm2_stake * bm2_odds
        let profit_if_bm1_wins := bm1_return - total_stake
        let profit_if_bm2_wins := bm2_return - total_stake
        let min_profit := min profit_if_bm1_wins profit_if_bm2_wins
        if total_stake = 0 then
          Except.error "ZeroDivisionError: float division by zero"
        else
          let profit_percentage := min_profit / total_stake * 100
          if 0 < min_profit then
            Except.ok (some {
              event_name := bookmaker1_odds.event_name.getD "Unknown Event",
              runner_name := (bm1_runner.runner_name.getD "None") ++ " vs " ++
                (bm2_runner.runner_name.getD "None"),
              back_exchange := bookmaker1_odds.bookmaker.getD "Bookmaker 1",
              lay_exchange := bookmaker2_odds.bookmaker.getD "Bookmaker 2",
              back_odds := bm1_odds,
              lay_odds := bm2_odds,
              stake := bm1_stake,
              lay_stake := bm2_stake,
              profit := min_profit,
              profit_percentage := profit_percentage,
              back_market_id := bookmaker1_market_id,
              lay_market_id := bookmaker2_market_id,
              back_selection_id := pair.1,
              lay_selection_id := pair.2,
              back_commission := 0,
              lay_commission := 0,
              back_platform := "oddsapi",
              lay_platform := "oddsapi",
              hedge_type := HedgeType.bookmaker_bookmaker,
              is_multi_leg := true,
              leg_count := 2,
              opposing_selections := some [
                (bm1_runner.runner_name, bm1_stake, bm1_odds),
                (bm2_runner.runner_name, bm2_stake, bm2_odds)],
              total_liability := total_stake,
              max_return := max bm1_return bm2_return,
              min_profit := min_profit })
          else Except.ok none
      else Except.ok none
    | _, _ => Except.ok none
  | _, _ => Except.ok none

/-
HedgeTypeAnalyzer.analyze_bookmaker_bookmaker (hedge_type_analyzer.py
lines 321-414): scan all opposing-runner pairs, sort by profit
descending (stable, Python sorted semantics).
-/
def analyze_bookmaker_bookmaker (bookmaker1_market_id bookmaker2_market_id : String)
    (bookmaker1_odds bookmaker2_odds : OddsData)
    (opposing_runner_matches : List (Option String × Option String))
    (stake : ℚ) : Except String (List EnhancedHedgeOpportunity) :=
  match collect_pairs
      (analyze_bookmaker_bookmaker_pair bookmaker1_odds bookmaker2_odds
        bookmaker1_market_id bookmaker2_market_id stake)
      opposing_runner_matches with
  | Except.error e => Except.error e
  | Except.ok opportunities =>
    Except.ok (opportunities.mergeSort (fun x y => decide (y.profit ≤ x.profit)))

/-
Concrete pair of opposing bookmaker prices used to witness claim C6:
odds 3.0 and 2.0 on a 100 stake give stakes 40/60 and a common
return of 120.
-/
def bb_demo_runner1 : Runner :=
  { selection_id := some "s1", runner_name := some "Over",
    best_back_price := none, best_lay_price := none, back_odds := some 3 }

def bb_demo_odds1 : OddsData :=
  { event_name := some "A vs B", bookmaker := some "Bet365",
    back_exchange := none, runners := [bb_demo_runner1] }

def bb_demo_runner2 : Runner :=
  { selection_id := some "s2", runner_name := some "Under",
    best_back_price := none, best_lay_price := none, back_odds := some 2 }

def bb_demo_odds2 : OddsData :=
  { event_name := some "A vs B", bookmaker := some "Paddy",
    back_exchange := none, runners := [bb_demo_runner2] }

/-
Python str.capitalize: first character uppercased, the rest lowercased.
-/
def py_capitalize (s : String) : String :=
  match s.data with
  | [] => ""
  | c :: rest => String.mk (c.toUpper :: rest.map Char.toLower)

/-
Loop bodies of HedgeCalculator.find_cross_platform_opportunities
(hedge_calculator.py lines 328-367 for the Betfair-back pass and
lines 370-409 for the Smarkets-back pass).
-/
def fcpo_pass1_body (betfair_odds smarkets_odds : OddsData)
    (event_info : EventInfo) (betfair_market_id smarkets_market_id : String)
    (stake betfair_commission smarkets_commission : ℚ)
    (pair : Option String × Option String) :
    Except String (Option HedgeOpportunity) :=
  match runners_by_id betfair_odds.runners pair.1,
        runners_by_id smarkets_odds.runners pair.2 with
  | some bf_runner, some sm_runner =>
    match bf_runner.best_back_price, sm_runner.best_lay_price with
    | some bf_back_odds, some sm_lay_odds =>
      if bf_back_odds ≠ 0 ∧ sm_lay_odds ≠ 0 ∧ 0 < bf_back_odds ∧ 0 < sm_lay_odds then
        match calculate_hedge (some bf_back_odds) (some sm_lay_odds) stake
            betfair_commission smarkets_commission with
        | Except.error e => Except.error e
        | Except.ok none => Except.ok none
        | Except.ok (some hedge_result) =>
          if 0 < hedge_result.profit then
            Except.ok (some {
              event_name := event_info.event_name.getD "Unknown Event",
              runner_name := bf_runner.runner_name.getD "Unknown Runner",
              back_exchange := "Betfair",
              lay_exchange := "Smarkets",
              back_odds := bf_back_odds,
              lay_odds := sm_lay_odds,
              stake := stake,
              lay_stake := hedge_result.lay_stake,
              profit := hedge_result.profit,
              profit_percentage := hedge_result.profit_percentage,
              back_market_id := betfair_market_id,
              lay_market_id := smarkets_market_id,
              back_selection_id := pair.1,
              lay_selection_id := pair.2,
              back_commission := betfair_commission,
              lay_commission := smarkets_commission,
              back_platform := "betfair",
              lay_platform := "smarkets" })
          else Except.ok none
      else Except.ok none
    | _, _ => Except.ok none
  | _, _ => Except.ok none

def fcpo_pass2_body (betfair_odds smarkets_odds : OddsData)
    (event_info : EventInfo) (betfair_market_id smarkets_market_id : String)
    (stake betfair_commission smarkets_commission : ℚ)
    (pair : Option String × Option String) :
    Except String (Option HedgeOpportunity) :=
  match runners_by_id betfair_odds.runners pair.1,
        runners_by_id smarkets_odds.runners pair.2 with
  | some bf_runner, some sm_runner =>
    match sm_runner.best_back_price, bf_runner.best_lay_price with
    | some sm_back_odds, some bf_lay_odds =>
      if sm_back_odds ≠ 0 ∧ bf_lay_odds ≠ 0 ∧ 0 < sm_back_odds ∧ 0 < bf_lay_odds then
        match calculate_hedge (some sm_back_odds) (some bf_lay_odds) stake
            smarkets_commission betfair_commission with
        | Except.error e => Except.error e
        | Except.ok none => Except.ok none
        | Except.ok (some hedge_result) =>
          if 0 < hedge_result.profit then
            Except.ok (some {
              event_name := event_info.event_name.getD "Unknown Event",
              runner_name := sm_runner.runner_name.getD "Unknown Runner",
              back_exchange := "Smarkets",
              lay_exchange := "Betfair",
              back_odds := sm_back_odds,
              lay_odds := bf_lay_odds,
              stake := stake,
              lay_stake := hedge_result.lay_stake,
              profit := hedge_result.profit,
              profit_percentage := hedge_result.profit_percentage,
              back_market_id := smarkets_market_id,
              lay_market_id := betfair_market_id,
              back_selection_id := pair.2,
              lay_selection_id := pair.1,
              back_commission := smarkets_commission,
              lay_commission := betfair_commission,
              back_platform := "smarkets",
              lay_platform := "betfair" })
          else Except.ok none
      else Except.ok none
    | _, _ => Except.ok none
  | _, _ => Except.ok none

/-
HedgeCalculator.find_cross_platform_opportunities (hedge_calculator.py
lines 298-412): both passes over the runner matches, then a stable sort
by profit descending.
-/
def find_cross_platform_opportunities (betfair_market_id smarkets_market_id : String)
    (betfair_odds smarkets_odds : OddsData)
    (runner_matches : List (Option String × Option String))
    (event_info : EventInfo) (stake betfair_commission smarkets_commission : ℚ) :
    Except String (List HedgeOpportunity) :=
  match collect_pairs
      (fcpo_pass1_body betfair_odds smarkets_odds event_info betfair_market_id
        smarkets_market_id stake betfair_commission smarkets_commission)
      runner_matches with
  | Except.error e => Except.error e
  | Except.ok ops1 =>
    match collect_pairs
        (fcpo_pass2_body betfair_odds smarkets_odds event_info betfair_market_id
          smarkets_market_id stake betfair_commission smarkets_commission)
        runner_matches with
    | Except.error e => Except.error e
    | Except.ok ops2 =>
      Except.ok ((ops1 ++ ops2).mergeSort (fun x y => decide (y.profit ≤ x.profit)))

/-
Loop body of HedgeCalculator.find_odds_api_exchange_opportunities
(hedge_calculator.py lines 147-185): bookmaker back price against an
exchange lay price through calculate_bookmaker_hedge.
-/
def foae_body (odds_api_odds exchange_odds : OddsData) (event_info : EventInfo)
    (odds_api_market_id exchange_market_id exchange_platform : String)
    (stake exchange_commission : ℚ)
    (pair : Option String × Option String) :
    Except String (Option HedgeOpportunity) :=
  match runners_by_id odds_api_odds.runners pair.1,
        runners_by_id exchange_odds.runners pair.2 with
  | some odds_api_runner, some exchange_runner =>
    match odds_api_runner.back_odds, exchange_runner.best_lay_price with
    | some bookmaker_odds, some exchange_lay_odds =>
      if bookmaker_odds ≠ 0 ∧ exchange_lay_odds ≠ 0 ∧ 0 < bookmaker_odds ∧
          0 < exchange_lay_odds then
        match calculate_bookmaker_hedge (some bookmaker_odds)
            (some exchange_lay_odds) stake exchange_commission with
        | Except.error e => Except.error e
        | Except.ok none => Except.ok none
        | Except.ok (some hedge_result) =>
          if 0 < hedge_result.profit then
            Except.ok (some {
              event_name := event_info.event_name.getD "Unknown Event",
              runner_name := odds_api_runner.runner_name.getD "Unknown Runner",
              back_exchange := odds_api_odds.bookmaker.getD "Bookmaker",
              lay_exchange := py_capitalize exchange_platform,
              back_odds := bookmaker_odds,
              lay_odds := exchange_lay_odds,
              stake := stake,
              lay_stake := hedge_result.lay_stake,
              profit := hedge_result.profit,
              profit_percentage := hedge_result.profit_percentage,
              back_market_id := odds_api_market_id,
              lay_market_id := exchange_market_id,
              back_selection_id := pair.1,
              lay_selection_id := pair.2,
              back_commission := 0,
              lay_commission := exchange_commission,
              back_platform := "oddsapi",
              lay_platform := exchange_platform })
          else Except.ok none
      else Except.ok none
    | _, _ => Except.ok none
  | _, _ => Except.ok none

/-
HedgeCalculator.find_odds_api_exchange_opportunities (hedge_calculator.py
lines 112-188): exchange commission chosen by platform from the instance
attributes, one pass, sorted by profit descending.
-/
def find_odds_api_exchange_opportunities
    (odds_api_market_id exchange_market_id exchange_platform : String)
    (odds_api_odds exchange_odds : OddsData)
    (runner_matches : List (Option String × Option String))
    (event_info : EventInfo) (stake betfair_commission smarkets_commission : ℚ) :
    Except String (List HedgeOpportunity) :=
  match collect_pairs
      (foae_body odds_api_odds exchange_odds event_info odds_api_market_id
        exchange_market_id exchange_platform stake
        (if exchange_platform = "betfair" then betfair_commission
         else smarkets_commission))
      runner_matches with
  | Except.error e => Except.error e
  | Except.ok opportunities =>
    Except.ok (opportunities.mergeSort (fun x y => decide (y.profit ≤ x.profit)))

/-
Loop body of HedgeTypeAnalyzer.analyze_exchange_internal
(hedge_type_analyzer.py lines 68-109): same-venue back/lay, considered
only when the book is crossed (back price above lay price).
-/
def aei_body (exchange_name market_id : String) (odds_data : OddsData)
    (stake commission : ℚ) (runner : Runner) :
    Except String (Option EnhancedHedgeOpportunity) :=
  match runner.best_back_price, runner.best_lay_price with
  | some back_odds, some lay_odds =>
    if back_odds = 0 ∨ lay_odds = 0 ∨ back_odds ≤ 0 ∨ lay_odds ≤ 0 then
      Except.ok none
    else if lay_odds < back_odds then
      match calculate_hedge (some back_odds) (some lay_odds) stake commission
          commission with
      | Except.error e => Except.error e
      | Except.ok none => Except.ok none
      | Except.ok (some hedge_result) =>
        if 0 < hedge_result.profit then
          Except.ok (some {
            event_name := odds_data.event_name.getD "Unknown Event",
            runner_name := runner.runner_name.getD "Unknown Runner",
            back_exchange := py_capitalize exchange_name,
            lay_exchange := py_capitalize exchange_name,
            back_odds := back_odds,
            lay_odds := lay_odds,
            stake := stake,
            lay_stake := hedge_result.lay_stake,
            profit := hedge_result.profit,
            profit_percentage := hedge_result.profit_percentage,
            back_market_id := market_id,
            lay_market_id := market_id,
            back_selection_id := runner.selection_id,
            lay_selection_id := runner.selection_id,
            back_commission := commission,
            lay_commission := commission,
            back_platform := py_lower exchange_name,
            lay_platform := py_lower exchange_name,
            hedge_type := HedgeType.exchange_internal,
            is_multi_leg := false,
            leg_count := 2,
            opposing_selections := none,
            total_liability := 0,
            max_return := 0,
            min_profit := 0 })
        else Except.ok none
    else Except.ok none
  | _, _ => Except.ok none

/-
HedgeTypeAnalyzer.analyze_exchange_internal (hedge_type_analyzer.py
lines 39-111): commission is the class constant for the named exchange;
an unknown exchange yields the empty list.
-/
def analyze_exchange_internal (exchange_name market_id : String)
    (odds_data : OddsData) (stake : ℚ) :
    Except String (List EnhancedHedgeOpportunity) :=
  if py_lower exchange_name = "betfair" ∨ py_lower exchange_name = "smarkets" then
    match collect_pairs
        (aei_body exchange_name market_id odds_data stake
          (if py_lower exchange_name = "betfair" then BETFAIR_COMMISSION
           else SMARKETS_COMMISSION))
        odds_data.runners with
    | Except.error e => Except.error e
    | Except.ok opportunities =>
      Except.ok (opportunities.mergeSort (fun x y => decide (y.profit ≤ x.profit)))
  else Except.ok []

/-
Loop bodies of HedgeTypeAnalyzer.analyze_cross_exchange
(hedge_type_analyzer.py lines 141-184 and 187-230).  The second pass
takes the runner name from the Betfair runner (line 209) and uses the
class commission constants.
-/
def ace_pass1_body (betfair_odds smarkets_odds : OddsData)
    (betfair_market_id smarkets_market_id : String) (stake : ℚ)
    (pair : Option String × Option String) :
    Except String (Option EnhancedHedgeOpportunity) :=
  match runners_by_id betfair_odds.runners pair.1,
        runners_by_id smarkets_odds.runners pair.2 with
  | some bf_runner, some sm_runner =>
    match bf_runner.best_back_price, sm_runner.best_lay_price with
    | some bf_back_odds, some sm_lay_odds =>
      if bf_back_odds ≠ 0 ∧ sm_lay_odds ≠ 0 ∧ 0 < bf_back_odds ∧ 0 < sm_lay_odds then
        match calculate_hedge (some bf_back_odds) (some sm_lay_odds) stake
            BETFAIR_COMMISSION SMARKETS_COMMISSION with
        | Except.error e => Except.error e
        | Except.ok none => Except.ok none
        | Except.ok (some hedge_result) =>
          if 0 < hedge_result.profit then
            Except.ok (some {
              event_name := betfair_odds.event_name.getD "Unknown Event",
              runner_name := bf_runner.runner_name.getD "Unknown Runner",
              back_exchange := "Betfair",
              lay_exchange := "Smarkets",
              back_odds := bf_back_odds,
              lay_odds := sm_lay_odds,
              stake := stake,
              lay_stake := hedge_result.lay_stake,
              profit := hedge_result.profit,
              profit_percentage := hedge_result.profit_percentage,
              back_market_id := betfair_market_id,
              lay_market_id := smarkets_market_id,
              back_selection_id := pair.1,
              lay_selection_id := pair.2,
              back_commission := BETFAIR_COMMISSION,
              lay_commission := SMARKETS_COMMISSION,
              back_platform := "betfair",
              lay_platform := "smarkets",
              hedge_type := HedgeType.cross_exchange,
              is_multi_leg := false,
              leg_count := 2,
              opposing_selections := none,
              total_liability := 0,
              max_return := 0,
              min_profit := 0 })
          else Except.ok none
      else Except.ok none
    | _, _ => Except.ok none
  | _, _ => Except.ok none

def ace_pass2_body (betfair_odds smarkets_odds : OddsData)
    (betfair_market_id smarkets_market_id : String) (stake : ℚ)
    (pair : Option String × Option String) :
    Except String (Option EnhancedHedgeOpportunity) :=
  match runners_by_id betfair_odds.runners pair.1,
        runners_by_id smarkets_odds.runners pair.2 with
  | some bf_runner, some sm_runner =>
    match sm_runner.best_back_price, bf_runner.best_lay_price with
    | some sm_back_odds, some bf_lay_odds =>
      if sm_back_odds ≠ 0 ∧ bf_lay_odds ≠ 0 ∧ 0 < sm_back_odds ∧ 0 < bf_lay_odds then
        match calculate_hedge (some sm_back_odds) (some bf_lay_odds) stake
            SMARKETS_COMMISSION BETFAIR_COMMISSION with
        | Except.error e => Except.error e
        | Except.ok none => Except.ok none
        | Except.ok (some hedge_result) =>
          if 0 < hedge_result.profit then
            Except.ok (some {
              event_name := betfair_odds.event_name.getD "Unknown Event",
              runner_name := bf_runner.runner_name.getD "Unknown Runner",
              back_exchange := "Smarkets",
              lay_exchange := "Betfair",
              back_odds := sm_back_odds,
              lay_odds := bf_lay_odds,
              stake := stake,
              lay_stake := hedge_result.lay_stake,
              profit := hedge_result.profit,
              profit_percentage := hedge_result.profit_percentage,
              back_market_id := smarkets_market_id,
              lay_market_id := betfair_market_id,
              back_selection_id := pair.2,
              lay_selection_id := pair.1,
              back_commission := SMARKETS_COMMISSION,
              lay_commission := BETFAIR_COMMISSION,
              back_platform := "smarkets",
              lay_platform := "betfair",
              hedge_type := HedgeType.cross_exchange,
              is_multi_leg := false,
              leg_count := 2,
              opposing_selections := none,
              total_liability := 0,
              max_return := 0,
              min_profit := 0 })
          else Except.ok none
      else Except.ok none
    | _, _ => Except.ok none
  | _, _ => Except.ok none

/-
HedgeTypeAnalyzer.analyze_cross_exchange (hedge_type_analyzer.py
lines 113-232).
-/
def analyze_cross_exchange (betfair_market_id smarkets_market_id : String)
    (betfair_odds smarkets_odds : OddsData)
    (runner_matches : List (Option String × Option String)) (stake : ℚ) :
    Except String (List EnhancedHedgeOpportunity) :=
  match collect_pairs
      (ace_pass1_body betfair_odds smarkets_odds betfair_market_id
        smarkets_market_id stake)
      runner_matches with
  | Except.error e => Except.error e
  | Except.ok ops1 =>
    match collect_pairs
        (ace_pass2_body betfair_odds smarkets_odds betfair_market_id
          smarkets_market_id stake)
        runner_matches with
    | Except.error e => Except.error e
    | Except.ok ops2 =>
      Except.ok ((ops1 ++ ops2).mergeSort (fun x y => decide (y.profit ≤ x.profit)))

/-
Loop body of HedgeTypeAnalyzer.analyze_bookmaker_exchange
(hedge_type_analyzer.py lines 273-317).
-/
def abe_body (bookmaker_odds exchange_odds : OddsData)
    (bookmaker_market_id exchange_market_id exchange_name : String)
    (stake commission : ℚ) (pair : Option String × Option String) :
    Except String (Option EnhancedHedgeOpportunity) :=
  match runners_by_id bookmaker_odds.runners pair.1,
        runners_by_id exchange_odds.runners pair.2 with
  | some bm_runner, some ex_runner =>
    match bm_runner.back_odds, ex_runner.best_lay_price with
    | some bm_odds, some ex_lay_odds =>
      if bm_odds ≠ 0 ∧ ex_lay_odds ≠ 0 ∧ 0 < bm_odds ∧ 0 < ex_lay_odds then
        match calculate_bookmaker_hedge (some bm_odds) (some ex_lay_odds) stake
            commission with
        | Except.error e => Except.error e
        | Except.ok none => Except.ok none
        | Except.ok (some hedge_result) =>
          if 0 < hedge_result.profit then
            Except.ok (some {
              event_name := bookmaker_odds.event_name.getD "Unknown Event",
              runner_name := bm_runner.runner_name.getD "Unknown Runner",
              back_exchange := bookmaker_odds.bookmaker.getD
                (bookmaker_odds.back_exchange.getD "Bookmaker"),
              lay_exchange := py_capitalize exchange_name,
              back_odds := bm_odds,
              lay_odds := ex_lay_odds,
              stake := stake,
              lay_stake := hedge_result.lay_stake,
              profit := hedge_result.profit,
              profit_percentage := hedge_result.profit_percentage,
              back_market_id := bookmaker_market_id,
              lay_market_id := exchange_market_id,
              back_selection_id := pair.1,
              lay_selection_id := pair.2,
              back_commission := 0,
              lay_commission := commission,
              back_platform := "oddsapi",
              lay_platform := py_lower exchange_name,
              hedge_type := HedgeType.bookmaker_exchange,
              is_multi_leg := false,
              leg_count := 2,
              opposing_selections := none,
              total_liability := 0,
              max_return := 0,
              min_profit := 0 })
          else Except.ok none
      else Except.ok none
    | _, _ => Except.ok none
  | _, _ => Except.ok none

/-
HedgeTypeAnalyzer.analyze_bookmaker_exchange (hedge_type_analyzer.py
lines 234-319): class commission constant for the named exchange,
empty list for an unknown exchange.
-/
def analyze_bookmaker_exchange (bookmaker_market_id exchange_market_id
    exchange_name : String) (bookmaker_odds exchange_odds : OddsData)
    (runner_matches : List (Option String × Option String)) (stake : ℚ) :
    Except String (List EnhancedHedgeOpportunity) :=
  if py_lower exchange_name = "betfair" ∨ py_lower exchange_name = "smarkets" then
    match collect_pairs
        (abe_body bookmaker_odds exchange_odds bookmaker_market_id
          exchange_market_id exchange_name stake
          (if py_lower exchange_name = "betfair" then BETFAIR_COMMISSION
           else SMARKETS_COMMISSION))
        runner_matches with
    | Except.error e => Except.error e
    | Except.ok opportunities =>
      Except.ok (opportunities.mergeSort (fun x y => decide (y.profit ≤ x.profit)))
  else Except.ok []

/-
Concrete Betfair/Smarkets market used to witness claim C9: back 2.2 on
Betfair against lay 2.0 on Smarkets with commissions 5 and 2 percent
yields lay stake 110 and guaranteed profit 4.
-/
def fcpo_demo_bf_runner : Runner :=
  { selection_id := some "b1", runner_name := some "R",
    best_back_price := some (11/5), best_lay_price := none, back_odds := none }

def fcpo_demo_sm_runner : Runner :=
  { selection_id := some "s1", runner_name := some "R",
    best_back_price := none, best_lay_price := some 2, back_odds := none }

def fcpo_demo_betfair : OddsData :=
  { event_name := some "E", bookmaker := none, back_exchange := none,
    runners := [fcpo_demo_bf_runner] }

def fcpo_demo_smarkets : OddsData :=
  { event_name := some "E", bookmaker := none, back_exchange := none,
    runners := [fcpo_demo_sm_runner] }

def fcpo_demo_opp : HedgeOpportunity :=
  { event_name := "E", runner_name := "R", back_exchange := "Betfair",
    lay_exchange := "Smarkets", back_odds := 11/5, lay_odds := 2,
    stake := 100, lay_stake := 110, profit := 4, profit_percentage := 4,
    back_market_id := "bm", lay_market_id := "sm",
    back_selection_id := some "b1", lay_selection_id := some "s1",
    back_commission := 5/100, lay_commission := 2/100,
    back_platform := "betfair", lay_platform := "smarkets" }

/-
Model of the Python \s class (ASCII range) used by re.sub and str.strip.
-/
def py_isspace (c : Char) : Bool :=
  c = ' ' || c = '\t' || c = '\n' || c = '\r' || c = '\x0b' || c = '\x0c'

/-
Model of the Python \w class (ASCII range): alphanumeric or underscore.
-/
def py_isword (c : Char) : Bool := c.isAlphanum || c = '_'

/-
One alternative of re.sub(r'\s+FC$|\s+United$|\s+City$', '', name)
(market_matcher.py line 23): the pattern matches iff the string ends
with the word preceded by at least one whitespace character; the match
starts at the beginning of that maximal whitespace run.
-/
def suffix_match_start (s w : List Char) : Option ℕ :=
  let n := s.length
  let wl := w.length
  if wl + 1 ≤ n ∧ s.drop (n - wl) = w then
    let ws_run := ((s.take (n - wl)).reverse.takeWhile py_isspace).length
    if 1 ≤ ws_run then some (n - wl - ws_run) else none
  else none

/-
The full substitution: the leftmost matching alternative wins and is
replaced by the empty string, which truncates the string at the match
start; with no match the string is unchanged.
-/
def strip_club_suffix (s : List Char) : List Char :=
  match List.filterMap (fun w => suffix_match_start s w)
      [String.data "FC", String.data "United", String.data "City"] with
  | [] => s
  | c :: rest => s.take (rest.foldl min c)

/-
Python str.strip.
-/
def py_strip (s : List Char) : List Char :=
  ((s.dropWhile py_isspace).reverse.dropWhile py_isspace).reverse

/-
MarketMatcher._normalize_team_name (market_matcher.py lines 17-27):
strip club suffixes, drop characters outside \w and \s, lowercase, strip.
-/
def _normalize_team_name (name : String) : String :=
  let s1 := strip_club_suffix name.data
  let s2 := s1.filter (fun c => py_isword c || py_isspace c)
  let s3 := s2.map Char.toLower
  String.mk (py_strip s3)

/-
difflib.SequenceMatcher with isjunk = None, embedded for
MarketMatcher._calculate_similarity (market_matcher.py lines 29-34).
b2j maps each element of b to its ascending list of positions; autojunk
removes popular elements when b has at least 200 elements.
-/
def b2j_add : List (Char × List ℕ) → Char → ℕ → List (Char × List ℕ)
  | [], c, i => [(c, [i])]
  | (c0, js) :: rest, c, i =>
    if c0 = c then (c0, js ++ [i]) :: rest else (c0, js) :: b2j_add rest c i

def b2j_build (b : List Char) : List (Char × List ℕ) :=
  b.enum.foldl (fun m p => b2j_add m p.2 p.1) []

def chain_b (b : List Char) : List (Char × List ℕ) :=
  let m := b2j_build b
  if 200 ≤ b.length then
    m.filter (fun p => decide (p.2.length ≤ b.length / 100 + 1))
  else m

def b2j_get (m : List (Char × List ℕ)) (c : Char) : List ℕ :=
  match m.find? (fun p => decide (p.1 = c)) with
  | some p => p.2
  | none => []

def j2len_get (m : List (ℕ × ℕ)) (j : ℕ) : ℕ :=
  match m.find? (fun p => decide (p.1 = j)) with
  | some p => p.2
  | none => 0

/-
Backward extension loop of find_longest_match: count how far the match
extends to the left while characters agree (the junk set is empty).
-/
def back_ext (a b : List Char) (alo blo : ℕ) : ℕ → ℕ → ℕ
  | 0, _ => 0
  | i+1, j =>
    if alo < i + 1 ∧ blo < j ∧ a.getD i default = b.getD (j - 1) default then
      back_ext a b alo blo i (j - 1) + 1
    else 0

/-
Forward extension loop of find_longest_match; the first argument after
bhi counts the remaining room up to ahi, so the loop condition
besti + bestsize < ahi is rem > 0.
-/
def fwd_ext (a b : List Char) (bhi i j : ℕ) : ℕ → ℕ → ℕ
  | 0, size => size
  | rem+1, size =>
    if j + size < bhi ∧ a.getD (i + size) default = b.getD (j + size) default
    then fwd_ext a b bhi i j rem (size + 1)
    else size

/-
difflib.SequenceMatcher.find_longest_match over the ranges
a[alo:ahi] and b[blo:bhi]: dynamic programming over rows (newj2len reads
the previous row), with the Python iteration order - positions below blo
are skipped and iteration stops at the first eligible position at or
beyond bhi - followed by both extension loops.
-/
def find_longest_match (a b : List Char) (m : List (Char × List ℕ))
    (alo ahi blo bhi : ℕ) : ℕ × ℕ × ℕ :=
  let st := (List.range' alo (ahi - alo)).foldl
    (fun (st : List (ℕ × ℕ) × ℕ × ℕ × ℕ) (i : ℕ) =>
      let oldj2len := st.1
      let js0 := b2j_get m (a.getD i default)
      let js := (js0.takeWhile
          (fun j => decide (j < blo) || decide (j < bhi))).filter
        (fun j => decide (blo ≤ j))
      js.foldl
        (fun (st2 : List (ℕ × ℕ) × ℕ × ℕ × ℕ) (j : ℕ) =>
          let k := (if j = 0 then 0 else j2len_get oldj2len (j - 1)) + 1
          let m2 := st2.1 ++ [(j, k)]
          if st2.2.2.2 < k then (m2, i + 1 - k, j + 1 - k, k)
          else (m2, st2.2.1, st2.2.2.1, st2.2.2.2))
        (([] : List (ℕ × ℕ)), st.2.1, st.2.2.1, st.2.2.2))
    (([] : List (ℕ × ℕ)), alo, blo, 0)
  let besti := st.2.1
  let bestj := st.2.2.1
  let bestsize := st.2.2.2
  let e := back_ext a b alo blo besti bestj
  let besti2 := besti - e
  let bestj2 := bestj - e
  let bestsize2 := bestsize + e
  (besti2, bestj2,
    fwd_ext a b bhi besti2 bestj2 (ahi - (besti2 + bestsize2)) bestsize2)

/-
Total size of the matching blocks of get_matching_blocks, computed by
the recursive range decomposition (the queue order and the final
adjacent-block merge do not change the total).  The first argument is
recursion fuel; a.length + b.length + 1 always suffices because each
decomposition step strictly shrinks the ranges.
-/
def match_sum (a b : List Char) (m : List (Char × List ℕ)) :
    ℕ → ℕ → ℕ → ℕ → ℕ → ℕ
  | 0, _, _, _, _ => 0
  | fuel+1, alo, ahi, blo, bhi =>
    match find_longest_match a b m alo ahi blo bhi with
    | (i, j, k) =>
      if k = 0 then 0
      else
        (if alo < i ∧ blo < j then match_sum a b m fuel alo i blo j else 0) +
        k +
        (if i + k < ahi ∧ j + k < bhi then
          match_sum a b m fuel (i + k) ahi (j + k) bhi
         else 0)

def sm_matches (a b : List Char) : ℕ :=
  match_sum a b (chain_b b) (a.length + b.length + 1) 0 a.length 0 b.length

/-
SequenceMatcher.ratio: 2 * matches / (len(a) + len(b)), and 1 when both
strings are empty.
-/
def sm_similarity (a b : List Char) : ℚ :=
  if a.length + b.length = 0 then 1
  else 2 * (sm_matches a b : ℚ) / ((a.length + b.length : ℕ) : ℚ)

/-
MarketMatcher._calculate_similarity (market_matcher.py lines 29-34).
-/
def _calculate_similarity (str1 str2 : String) : ℚ :=
  sm_similarity str1.data str2.data

/-
Similarity of one Smarkets runner against an already-normalized Betfair
name, as computed inside the loop of MarketMatcher.find_runner_matches
(market_matcher.py lines 175-177).
-/
def runner_similarity (bname : String) (sr : Runner) : ℚ :=
  _calculate_similarity bname (_normalize_team_name (sr.runner_name.getD ""))

/-
Inner loop of MarketMatcher.find_runner_matches (market_matcher.py
lines 172-181): best match and best score, updated only on a strictly
greater similarity that also meets the threshold.
-/
def best_match_aux (bname : String) (t : ℚ) :
    List Runner → Option Runner × ℚ → Option Runner × ℚ
  | [], acc => acc
  | sr :: rest, acc =>
    best_match_aux bname t rest
      (if acc.2 < runner_similarity bname sr ∧ t ≤ runner_similarity bname sr
       then (some sr, runner_similarity bname sr) else acc)

def best_runner_match (smarkets_runners : List Runner) (bname : String)
    (t : ℚ) : Option Runner :=
  (best_match_aux bname t smarkets_runners ((none : Option Runner), (0:ℚ))).1

/-
Python dict assignment runner_matches[key] = value: overwrite in place,
else append.
-/
def dict_insert (m : List (Option String × Option String))
    (k v : Option String) : List (Option String × Option String) :=
  if m.any (fun p => decide (p.1 = k)) then
    m.map (fun p => if p.1 = k then (k, v) else p)
  else m ++ [(k, v)]

/-
MarketMatcher.find_runner_matches (market_matcher.py lines 152-186).
-/
def find_runner_matches (betfair_runners smarkets_runners : List Runner)
    (similarity_threshold : ℚ) : List (Option String × Option String) :=
  betfair_runners.foldl
    (fun m br =>
      match best_runner_match smarkets_runners
          (_normalize_team_name (br.runner_name.getD "")) similarity_threshold with
      | some best => dict_insert m br.selection_id best.selection_id
      | none => m)
    []

/-
Concrete runner lists used to witness claim C8: two Betfair selections
with the same name both match the single Smarkets selection.
-/
def c8_demo_a1 : Runner :=
  { selection_id := some "a1", runner_name := some "Arsenal",
    best_back_price := none, best_lay_price := none, back_odds := none }

def c8_demo_a2 : Runner :=
  { selection_id := some "a2", runner_name := some "Arsenal",
    best_back_price := none, best_lay_price := none, back_odds := none }

def c8_demo_b1 : Runner :=
  { selection_id := some "b1", runner_name := some "Arsenal",
    best_back_price := none, best_lay_price := none, back_odds := none }

/-- Claim C1: for every backOdds > 1, layOdds > 1 and stake > 0,
calculate_hedge returns a result whose profit field is
min(profitIfBackWins, profitIfLayWins) and whose profitPercentage field
is profit / stake * 100, where profitIfBackWins =
stake * (backOdds - 1) * (1 - backCommission) - layStake * (layOdds - 1),
profitIfLayWins = layStake * (1 - layCommission) - stake and
layStake = stake * backOdds / layOdds, every returned quantity being
rounded to two decimal places. -/
theorem calculate_hedge_profit_fields
    (bo lo stake bc lc : ℚ) (hbo : 1 < bo) (hlo : 1 < lo) (hs : 0 < stake) :
    ∃ r : HedgeResult,
      calculate_hedge (some bo) (some lo) stake bc lc = Except.ok (some r) ∧
      r.profit =
        round2 (min (stake * (bo - 1) * (1 - bc) - stake * bo / lo * (lo - 1))
                    (stake * bo / lo * (1 - lc) - stake)) ∧
      r.profit_percentage =
        round2 (min (stake * (bo - 1) * (1 - bc) - stake * bo / lo * (lo - 1))
                    (stake * bo / lo * (1 - lc) - stake) / stake * 100) ∧
      r.lay_stake = round2 (stake * bo / lo) ∧
      r.lay_liability = round2 (stake * bo / lo * (lo - 1)) ∧
      r.profit_if_back_wins =
        round2 (stake * (bo - 1) * (1 - bc) - stake * bo / lo * (lo - 1)) ∧
      r.profit_if_lay_wins = round2 (stake * bo / lo * (1 - lc) - stake) := by
  have h1 : ¬ (some bo = (none : Option ℚ) ∨ some bo = some (0:ℚ) ∨
      some lo = (none : Option ℚ) ∨ some lo = some (0:ℚ) ∨
      bo ≤ 0 ∨ lo ≤ 0 ∨ lo ≤ 1) := by
    push_neg
    refine ⟨by simp, by simp [show bo ≠ 0 by linarith], by simp,
      by simp [show lo ≠ 0 by linarith], by linarith, by linarith, by linarith⟩
  have h2 : stake ≠ 0 := ne_of_gt hs
  refine ⟨{
      lay_stake := round2 (stake * bo / lo),
      lay_liability := round2 (stake * bo / lo * (lo - 1)),
      profit_if_back_wins :=
        round2 (stake * (bo - 1) * (1 - bc) - stake * bo / lo * (lo - 1)),
      profit_if_lay_wins := round2 (stake * bo / lo * (1 - lc) - stake),
      profit :=
        round2 (min (stake * (bo - 1) * (1 - bc) - stake * bo / lo * (lo - 1))
                    (stake * bo / lo * (1 - lc) - stake)),
      profit_percentage :=
        round2 (min (stake * (bo - 1) * (1 - bc) - stake * bo / lo * (lo - 1))
                    (stake * bo / lo * (1 - lc) - stake) / stake * 100) },
    ?_, rfl, rfl, rfl, rfl, rfl, rfl⟩
  simp only [calculate_hedge, Option.getD_some, if_neg h1, if_neg h2]

/-- Claim C1 witness: concrete instance at backOdds 2, layOdds 1.9,
stake 100, commissions 0. -/
theorem calculate_hedge_profit_fields_witness :
    ∃ r : HedgeResult,
      calculate_hedge (some 2) (some (19/10)) 100 0 0 = Except.ok (some r) ∧
      r.profit =
        round2 (min ((100:ℚ) * (2 - 1) * (1 - 0) - 100 * 2 / (19/10) * (19/10 - 1))
                    ((100:ℚ) * 2 / (19/10) * (1 - 0) - 100)) ∧
      r.profit_percentage =
        round2 (min ((100:ℚ) * (2 - 1) * (1 - 0) - 100 * 2 / (19/10) * (19/10 - 1))
                    ((100:ℚ) * 2 / (19/10) * (1 - 0) - 100) / 100 * 100) ∧
      r.lay_stake = round2 ((100:ℚ) * 2 / (19/10)) ∧
      r.lay_liability = round2 ((100:ℚ) * 2 / (19/10) * (19/10 - 1)) ∧
      r.profit_if_back_wins =
        round2 ((100:ℚ) * (2 - 1) * (1 - 0) - 100 * 2 / (19/10) * (19/10 - 1)) ∧
      r.profit_if_lay_wins = round2 ((100:ℚ) * 2 / (19/10) * (1 - 0) - 100) :=
  calculate_hedge_profit_fields 2 (19/10) 100 0 0 (by norm_num) (by norm_num)
    (by norm_num)

/-- Claim C2: with both commissions zero and the lay stake computed as
stake * backOdds / layOdds, the two scenario profits computed by
calculate_hedge coincide: profitIfBackWins = profitIfLayWins, both as
exact quantities and in the returned record. -/
theorem calculate_hedge_zero_commission_symmetry
    (bo lo stake : ℚ) (hbo : 1 < bo) (hlo : 1 < lo) (hs : 0 < stake) :
    (stake * (bo - 1) * (1 - 0) - stake * bo / lo * (lo - 1) =
      stake * bo / lo * (1 - 0) - stake) ∧
    ∀ r : HedgeResult, calculate_hedge (some bo) (some lo) stake 0 0 =
        Except.ok (some r) → r.profit_if_back_wins = r.profit_if_lay_wins := by
  have hlo0 : lo ≠ 0 := by linarith
  have key : stake * (bo - 1) * (1 - 0) - stake * bo / lo * (lo - 1) =
      stake * bo / lo * (1 - 0) - stake := by
    field_simp
    ring
  refine ⟨key, ?_⟩
  intro r hr
  obtain ⟨r2, hr2, hp1, hp2, _, _, hb, hl⟩ :=
    calculate_hedge_profit_fields bo lo stake 0 0 hbo hlo hs
  rw [hr] at hr2
  obtain rfl : r = r2 := by
    have := hr2
    injection this with h
    injection h
  rw [hb, hl, key]

/-- Claim C2 witness: concrete instance at backOdds 2, layOdds 1.9,
stake 100. -/
theorem calculate_hedge_zero_commission_symmetry_witness :
    ((100:ℚ) * (2 - 1) * (1 - 0) - 100 * 2 / (19/10) * ((19/10) - 1) =
      100 * 2 / (19/10) * (1 - 0) - 100) ∧
    ∀ r : HedgeResult, calculate_hedge (some 2) (some (19/10)) 100 0 0 =
        Except.ok (some r) → r.profit_if_back_wins = r.profit_if_lay_wins :=
  calculate_hedge_zero_commission_symmetry 2 (19/10) 100 (by norm_num)
    (by norm_num) (by norm_num)

/-- Claim C7: whenever backOdds is absent or nonpositive, or layOdds is
absent or at most 1, calculate_hedge returns None (embedded as
Except.ok none) and never reaches the division error branch. -/
theorem calculate_hedge_rejects_invalid_odds
    (back_odds lay_odds : Option ℚ) (stake bc lc : ℚ)
    (h : back_odds = none ∨ (∃ b, back_odds = some b ∧ b ≤ 0) ∨
         lay_odds = none ∨ (∃ l, lay_odds = some l ∧ l ≤ 1)) :
    calculate_hedge back_odds lay_odds stake bc lc = Except.ok none := by
  have hguard : back_odds = none ∨ back_odds = some 0 ∨ lay_odds = none ∨
      lay_odds = some 0 ∨ back_odds.getD 0 ≤ 0 ∨ lay_odds.getD 0 ≤ 0 ∨
      lay_odds.getD 0 ≤ 1 := by
    rcases h with h | ⟨b, rfl, hb⟩ | h | ⟨l, rfl, hl⟩
    · exact Or.inl h
    · exact Or.inr (Or.inr (Or.inr (Or.inr (Or.inl (by simpa using hb)))))
    · exact Or.inr (Or.inr (Or.inl h))
    · exact Or.inr (Or.inr (Or.inr (Or.inr (Or.inr (Or.inr (by simpa using hl))))))
  simp only [calculate_hedge, if_pos hguard]

/-- Claim C7 witness: layOdds exactly 1 yields None, not a division
error. -/
theorem calculate_hedge_rejects_invalid_odds_witness :
    calculate_hedge (some 2) (some 1) 100 0 0 = Except.ok none :=
  calculate_hedge_rejects_invalid_odds (some 2) (some 1) 100 0 0
    (Or.inr (Or.inr (Or.inr ⟨1, rfl, le_refl 1⟩)))

/-- Claim C10: the validity guard of calculate_hedge inspects only the
odds, never the stake: for every backOdds > 0 and layOdds > 1 a call with
stake = 0 is not mapped to the absent result but reaches the unguarded
division profit / stake * 100, i.e. the ZeroDivisionError branch of the
embedding is reachable at the public interface. -/
theorem calculate_hedge_stake_zero_unguarded
    (bo lo bc lc : ℚ) (hbo : 0 < bo) (hlo : 1 < lo) :
    calculate_hedge (some bo) (some lo) 0 bc lc =
      Except.error "ZeroDivisionError: float division by zero" := by
  have h1 : ¬ (some bo = (none : Option ℚ) ∨ some bo = some (0:ℚ) ∨
      some lo = (none : Option ℚ) ∨ some lo = some (0:ℚ) ∨
      bo ≤ 0 ∨ lo ≤ 0 ∨ lo ≤ 1) := by
    push_neg
    refine ⟨by simp, by simp [show bo ≠ 0 by linarith], by simp,
      by simp [show lo ≠ 0 by linarith], by linarith, by linarith, by linarith⟩
  simp only [calculate_hedge, Option.getD_some, if_neg h1]
  norm_num

/-- Claim C10 witness: concrete instance at backOdds 2, layOdds 1.5,
stake 0. -/
theorem calculate_hedge_stake_zero_unguarded_witness :
    calculate_hedge (some 2) (some (3/2)) 0 (5/100) (2/100) =
      Except.error "ZeroDivisionError: float division by zero" :=
  calculate_hedge_stake_zero_unguarded 2 (3/2) (5/100) (2/100) (by norm_num)
    (by norm_num)

/-- Claim C3: in the balanced three-way allocation (backStake scaled by
impliedProb(backOdds)/probSum, lay stakes backReturn/layOdds), the three
per-outcome profits coincide when the exchange commission is 0, for every
backOdds, layOdds1, layOdds2 greater than 1 and every baseStake
greater than 0. -/
theorem three_way_equal_profits (base bo lo1 lo2 : ℚ)
    (hbo : 1 < bo) (hlo1 : 1 < lo1) (hlo2 : 1 < lo2) (hbase : 0 < base) :
    tw_profit_if_back_wins_adj base bo lo1 lo2 0 =
      tw_profit_if_lay1_wins_adj base bo lo1 lo2 0 ∧
    tw_profit_if_lay1_wins_adj base bo lo1 lo2 0 =
      tw_profit_if_lay2_wins_adj base bo lo1 lo2 0 := by
  have hb0 : bo ≠ 0 := by linarith
  have hl10 : lo1 ≠ 0 := by linarith
  have hl20 : lo2 ≠ 0 := by linarith
  have hps : tw_prob_sum bo lo1 lo2 ≠ 0 := by
    have t1 : 0 < 1 / bo := one_div_pos.mpr (by linarith)
    have t2 : 0 < 1 / lo1 := one_div_pos.mpr (by linarith)
    have t3 : 0 < 1 / lo2 := one_div_pos.mpr (by linarith)
    simp only [tw_prob_sum, _calculate_implied_probability]
    linarith
  constructor
  · simp only [tw_profit_if_back_wins_adj, tw_profit_if_lay1_wins_adj,
      tw_profit_if_back_wins, tw_profit_if_lay1_wins, tw_lay_stake1,
      tw_lay_stake2, tw_back_return, tw_back_stake, tw_prob_sum,
      _calculate_implied_probability] at *
    field_simp
    ring
  · simp only [tw_profit_if_lay1_wins_adj, tw_profit_if_lay2_wins_adj,
      tw_profit_if_lay1_wins, tw_profit_if_lay2_wins, tw_lay_stake1,
      tw_lay_stake2, tw_back_return, tw_back_stake, tw_prob_sum,
      _calculate_implied_probability] at *
    field_simp
    ring

/-- Claim C3 witness: concrete instance at baseStake 100 and odds
(100, 2, 200/103). -/
theorem three_way_equal_profits_witness :
    tw_profit_if_back_wins_adj 100 100 2 (200/103) 0 =
      tw_profit_if_lay1_wins_adj 100 100 2 (200/103) 0 ∧
    tw_profit_if_lay1_wins_adj 100 100 2 (200/103) 0 =
      tw_profit_if_lay2_wins_adj 100 100 2 (200/103) 0 :=
  three_way_equal_profits 100 100 2 (200/103) (by norm_num) (by norm_num)
    (by norm_num) (by norm_num)

/-- Claim C5: for any choice of backed outcome, if the sum of implied
probabilities 1/backOdds + 1/layOdds1 + 1/layOdds2 exceeds 1.03, the
stake-optimisation step returns no result for that outcome choice. -/
theorem three_way_probsum_reject (comm base : ℚ) (bsel lsel1 lsel2 : String)
    (bo lo1 lo2 : ℚ) (hbo : 1 < bo) (hlo1 : 1 < lo1) (hlo2 : 1 < lo2)
    (h : 103/100 < 1/bo + 1/lo1 + 1/lo2) :
    optimize_three_way_stakes comm base bsel bo lsel1 lo1 lsel2 lo2 =
      Except.ok none := by
  have hb0 : ¬ (bo = 0) := by intro h0; rw [h0] at hbo; norm_num at hbo
  have hl10 : ¬ (lo1 = 0) := by intro h0; rw [h0] at hlo1; norm_num at hlo1
  have hl20 : ¬ (lo2 = 0) := by intro h0; rw [h0] at hlo2; norm_num at hlo2
  have hps : (103:ℚ)/100 < tw_prob_sum bo lo1 lo2 := by
    simpa [tw_prob_sum, _calculate_implied_probability] using h
  simp only [optimize_three_way_stakes, if_neg hb0, if_neg hl10, if_neg hl20,
    if_pos hps]

/-- Claim C5 witness: implied probability sum 1.5 (odds 2, 2, 2) exceeds
1.03 and is rejected. -/
theorem three_way_probsum_reject_witness :
    optimize_three_way_stakes (5/100) 100 "Home" 2 "Draw" 2 "Away" 2 =
      Except.ok none :=
  three_way_probsum_reject (5/100) 100 "Home" "Draw" "Away" 2 2 2
    (by norm_num) (by norm_num) (by norm_num) (by norm_num)

lemma optimize_some_pos {comm base bo lo1 lo2 : ℚ} {bs ls1 ls2 : String}
    {s : ThreeWayHedgeResult}
    (h : optimize_three_way_stakes comm base bs bo ls1 lo1 ls2 lo2 =
      Except.ok (some s)) : s.profitable = true ∧ 0 < s.profit := by
  simp only [optimize_three_way_stakes] at h
  split at h
  · simp at h
  split at h
  · simp at h
  split at h
  · simp at h
  split at h
  · simp at h
  split at h
  · simp at h
  split at h
  · simp at h
  split at h
  · simp at h
  rename_i hmin _
  injection h with h1
  injection h1 with h2
  subst h2
  exact ⟨rfl, lt_of_not_le hmin⟩

lemma tw_step_snd_le (best : Option ThreeWayHedgeResult × ℚ)
    (cand : Except String (Option ThreeWayHedgeResult)) :
    best.2 ≤ (tw_step best cand).2 := by
  cases cand with
  | error e => exact le_refl _
  | ok o =>
    cases o with
    | none => exact le_refl _
    | some res =>
      simp only [tw_step]
      split
      · rename_i hc
        exact le_of_lt hc.2
      · exact le_refl _

lemma tw_foldl_snd_le (cands : List (Except String (Option ThreeWayHedgeResult)))
    (best : Option ThreeWayHedgeResult × ℚ) :
    best.2 ≤ (List.foldl tw_step best cands).2 := by
  induction cands generalizing best with
  | nil => exact le_refl _
  | cons c rest ih =>
      exact le_trans (tw_step_snd_le best c) (ih (tw_step best c))

lemma tw_foldl_mem_le (cands : List (Except String (Option ThreeWayHedgeResult)))
    (s : ThreeWayHedgeResult) (hprof : s.profitable = true) :
    ∀ best, Except.ok (some s) ∈ cands →
      s.profit ≤ (List.foldl tw_step best cands).2 := by
  induction cands with
  | nil => intro best h; cases h
  | cons c rest ih =>
      intro best hmem
      rcases List.mem_cons.mp hmem with hc | hrest
      · subst hc
        simp only [List.foldl_cons]
        refine le_trans ?_
          (tw_foldl_snd_le rest (tw_step best (Except.ok (some s))))
        simp only [tw_step]
        split
        · exact le_refl _
        · rename_i hcond
          rcases not_and_or.mp hcond with h1 | h2
          · exact absurd hprof h1
          · exact le_of_not_lt h2
      · simp only [List.foldl_cons]
        exact ih (tw_step best c) hrest

lemma tw_step_inv {best : Option ThreeWayHedgeResult × ℚ}
    {cand : Except String (Option ThreeWayHedgeResult)}
    (inv : ∀ t, best.1 = some t → best.2 = t.profit) :
    ∀ t, (tw_step best cand).1 = some t → (tw_step best cand).2 = t.profit := by
  cases cand with
  | error e => exact inv
  | ok o =>
    cases o with
    | none => exact inv
    | some res =>
      intro t
      simp only [tw_step]
      split
      · intro ht
        simp only at ht
        injection ht with h1
        rw [h1]
      · exact inv t

lemma tw_foldl_fst_eq (cands : List (Except String (Option ThreeWayHedgeResult))) :
    ∀ best : Option ThreeWayHedgeResult × ℚ,
      (∀ t, best.1 = some t → best.2 = t.profit) →
      ∀ t, (List.foldl tw_step best cands).1 = some t →
        (List.foldl tw_step best cands).2 = t.profit := by
  induction cands with
  | nil => intro best inv; exact inv
  | cons c rest ih =>
      intro best inv
      simp only [List.foldl_cons]
      exact ih (tw_step best c) (tw_step_inv inv)

lemma tw_step_fst_cases (best : Option ThreeWayHedgeResult × ℚ)
    (cand : Except String (Option ThreeWayHedgeResult)) :
    (tw_step best cand).1 = best.1 ∨
      ∃ res, cand = Except.ok (some res) ∧ (tw_step best cand).1 = some res := by
  cases cand with
  | error e => exact Or.inl rfl
  | ok o =>
    cases o with
    | none => exact Or.inl rfl
    | some res =>
      simp only [tw_step]
      split
      · exact Or.inr ⟨res, rfl, rfl⟩
      · exact Or.inl rfl

lemma tw_foldl_fst_mem (cands : List (Except String (Option ThreeWayHedgeResult))) :
    ∀ (best : Option ThreeWayHedgeResult × ℚ) (r : ThreeWayHedgeResult),
      (List.foldl tw_step best cands).1 = some r →
      best.1 = some r ∨ Except.ok (some r) ∈ cands := by
  induction cands with
  | nil => intro best r h; exact Or.inl h
  | cons c rest ih =>
      intro best r h
      simp only [List.foldl_cons] at h
      rcases ih (tw_step best c) r h with hb | hrest
      · rcases tw_step_fst_cases best c with he | ⟨res, hc, hres⟩
        · exact Or.inl (he ▸ hb)
        · rw [hres] at hb
          injection hb with h1
          subst h1
          rw [hc]
          exact Or.inr (List.mem_cons_self _ _)
      · exact Or.inr (List.mem_cons_of_mem _ hrest)

/-- Claim C4: given exactly three selection names and back and lay odds
all greater than 1, calculate_three_way_hedge evaluates all three choices
of backed outcome (laying the other two) and, when it returns a result,
that result is one of the three balanced allocations and its profit is
greater than or equal to the profit of the balanced allocation for each
of the three choices. -/
theorem three_way_hedge_returns_best (comm base : ℚ) (n0 n1 n2 : String)
    (b0 b1 b2 l0 l1 l2 : ℚ)
    (hb0 : 1 < b0) (hb1 : 1 < b1) (hb2 : 1 < b2)
    (hl0 : 1 < l0) (hl1 : 1 < l1) (hl2 : 1 < l2)
    (r : ThreeWayHedgeResult)
    (hr : calculate_three_way_hedge comm [n0, n1, n2] [b0, b1, b2]
      [l0, l1, l2] base = some r) :
    (optimize_three_way_stakes comm base n0 b0 n1 l1 n2 l2 =
        Except.ok (some r) ∨
      optimize_three_way_stakes comm base n1 b1 n0 l0 n2 l2 =
        Except.ok (some r) ∨
      optimize_three_way_stakes comm base n2 b2 n0 l0 n1 l1 =
        Except.ok (some r)) ∧
    ∀ s : ThreeWayHedgeResult,
      (optimize_three_way_stakes comm base n0 b0 n1 l1 n2 l2 =
          Except.ok (some s) ∨
        optimize_three_way_stakes comm base n1 b1 n0 l0 n2 l2 =
          Except.ok (some s) ∨
        optimize_three_way_stakes comm base n2 b2 n0 l0 n1 l1 =
          Except.ok (some s)) →
      s.profit ≤ r.profit := by
  have hguard : ¬ (b0 ≤ 1 ∨ b1 ≤ 1 ∨ b2 ≤ 1 ∨ l0 ≤ 1 ∨ l1 ≤ 1 ∨ l2 ≤ 1) := by
    push_neg
    exact ⟨hb0, hb1, hb2, hl0, hl1, hl2⟩
  simp only [calculate_three_way_hedge, if_neg hguard] at hr
  have hmem := tw_foldl_fst_mem _ _ _ hr
  have hsnd := tw_foldl_fst_eq _ _ (by intro t ht; cases ht) _ hr
  constructor
  · rcases hmem with hnone | hmem
    · cases hnone
    · rcases by simpa using hmem with h | h | h
      · exact Or.inl h.symm
      · exact Or.inr (Or.inl h.symm)
      · exact Or.inr (Or.inr h.symm)
  · intro s hs
    have hs_mem : Except.ok (some s) ∈
        [optimize_three_way_stakes comm base n0 b0 n1 l1 n2 l2,
         optimize_three_way_stakes comm base n1 b1 n0 l0 n2 l2,
         optimize_three_way_stakes comm base n2 b2 n0 l0 n1 l1] := by
      rcases hs with h | h | h
      · rw [← h]; exact List.mem_cons_self _ _
      · rw [← h]
        exact List.mem_cons_of_mem _ (List.mem_cons_self _ _)
      · rw [← h]
        exact List.mem_cons_of_mem _ (List.mem_cons_of_mem _
          (List.mem_cons_self _ _))
    have hprof : s.profitable = true := by
      rcases hs with h | h | h
      · exact (optimize_some_pos h).1
      · exact (optimize_some_pos h).1
      · exact (optimize_some_pos h).1
    calc s.profit ≤ _ := tw_foldl_mem_le _ s hprof _ hs_mem
    _ = r.profit := hsnd

lemma tw_demo_c0 :
    optimize_three_way_stakes 0 100 "Home" 100 "Draw" 2 "Away" (200/103) =
      Except.ok (some tw_demo_result) := by
  simp only [optimize_three_way_stakes, tw_prob_sum, tw_back_stake,
    tw_back_return, tw_lay_stake1, tw_lay_stake2, tw_profit_if_back_wins_adj,
    tw_profit_if_back_wins, tw_profit_if_lay1_wins_adj, tw_profit_if_lay1_wins,
    tw_profit_if_lay2_wins_adj, tw_profit_if_lay2_wins,
    _calculate_implied_probability, tw_demo_result, min_def]
  norm_num

lemma tw_demo_c1 :
    optimize_three_way_stakes 0 100 "Draw" 2 "Home" 100 "Away" (200/103) =
      Except.ok none := by
  simp only [optimize_three_way_stakes, tw_prob_sum, tw_back_stake,
    tw_back_return, tw_lay_stake1, tw_lay_stake2, tw_profit_if_back_wins_adj,
    tw_profit_if_back_wins, tw_profit_if_lay1_wins_adj, tw_profit_if_lay1_wins,
    tw_profit_if_lay2_wins_adj, tw_profit_if_lay2_wins,
    _calculate_implied_probability, min_def]
  norm_num

lemma tw_demo_c2 :
    optimize_three_way_stakes 0 100 "Away" (200/103) "Home" 100 "Draw" 2 =
      Except.ok none := by
  simp only [optimize_three_way_stakes, tw_prob_sum, tw_back_stake,
    tw_back_return, tw_lay_stake1, tw_lay_stake2, tw_profit_if_back_wins_adj,
    tw_profit_if_back_wins, tw_profit_if_lay1_wins_adj, tw_profit_if_lay1_wins,
    tw_profit_if_lay2_wins_adj, tw_profit_if_lay2_wins,
    _calculate_implied_probability, min_def]
  norm_num

lemma tw_demo_calc :
    calculate_three_way_hedge 0 ["Home", "Draw", "Away"] [100, 2, 200/103]
      [100, 2, 200/103] 100 = some tw_demo_result := by
  simp only [calculate_three_way_hedge]
  rw [if_neg (by norm_num)]
  rw [tw_demo_c0, tw_demo_c1, tw_demo_c2]
  simp only [List.foldl_cons, List.foldl_nil, tw_step]
  rw [if_pos ⟨rfl, by norm_num [tw_demo_result]⟩]

/-- Claim C4 witness: on the concrete three-way market the returned
result is one of the three balanced allocations. -/
theorem three_way_hedge_returns_best_witness :
    optimize_three_way_stakes 0 100 "Home" 100 "Draw" 2 "Away" (200/103) =
        Except.ok (some tw_demo_result) ∨
      optimize_three_way_stakes 0 100 "Draw" 2 "Home" 100 "Away" (200/103) =
        Except.ok (some tw_demo_result) ∨
      optimize_three_way_stakes 0 100 "Away" (200/103) "Home" 100 "Draw" 2 =
        Except.ok (some tw_demo_result) :=
  (three_way_hedge_returns_best 0 100 "Home" "Draw" "Away" 100 2 (200/103)
    100 2 (200/103) (by norm_num) (by norm_num) (by norm_num) (by norm_num)
    (by norm_num) (by norm_num) tw_demo_result tw_demo_calc).1

/-- Claim C6: in analyzeBookmakerVsBookmaker, for opposing back odds
bm1Odds > 0 and bm2Odds > 0 and total stake S > 0 the stakes are split
proportionally to the inverse of each odds (bm1Stake = S*bm2/(bm1+bm2),
bm2Stake = S - bm1Stake), making the realized return identical whichever
side wins; the emitted profit is that common return minus the total
stake, and the pair is rejected whenever that profit is not positive. -/
theorem bookmaker_bookmaker_arbitrage
    (odds1 odds2 : OddsData) (m1 m2 : String) (S b1 b2 : ℚ)
    (pair : Option String × Option String) (r1 r2 : Runner)
    (hr1 : runners_by_id odds1.runners pair.1 = some r1)
    (hr2 : runners_by_id odds2.runners pair.2 = some r2)
    (ho1 : r1.back_odds = some b1) (ho2 : r2.back_odds = some b2)
    (hb1 : 0 < b1) (hb2 : 0 < b2) (hS : 0 < S) :
    (S * b2 / (b1 + b2) * b1 = (S - S * b2 / (b1 + b2)) * b2) ∧
    (∀ o : EnhancedHedgeOpportunity,
      analyze_bookmaker_bookmaker_pair odds1 odds2 m1 m2 S pair =
        Except.ok (some o) →
      o.stake = S * b2 / (b1 + b2) ∧ o.lay_stake = S - S * b2 / (b1 + b2) ∧
      o.profit = S * b2 / (b1 + b2) * b1 - S ∧ 0 < o.profit) ∧
    (S * b2 / (b1 + b2) * b1 - S ≤ 0 →
      analyze_bookmaker_bookmaker_pair odds1 odds2 m1 m2 S pair =
        Except.ok none) := by
  have hsum : b1 + b2 ≠ 0 := by positivity
  have hret : S * b2 / (b1 + b2) * b1 = (S - S * b2 / (b1 + b2)) * b2 := by
    field_simp
    ring
  have hguard : b1 ≠ 0 ∧ b2 ≠ 0 ∧ 0 < b1 ∧ 0 < b2 :=
    ⟨ne_of_gt hb1, ne_of_gt hb2, hb1, hb2⟩
  have hS0 : ¬ (S = 0) := ne_of_gt hS
  have hmin : min (S * b2 / (b1 + b2) * b1 - S)
      ((S - S * b2 / (b1 + b2)) * b2 - S) = S * b2 / (b1 + b2) * b1 - S := by
    rw [← hret, min_self]
  have heval : analyze_bookmaker_bookmaker_pair odds1 odds2 m1 m2 S pair =
      (if 0 < S * b2 / (b1 + b2) * b1 - S then
        Except.ok (some {
          event_name := odds1.event_name.getD "Unknown Event",
          runner_name := (r1.runner_name.getD "None") ++ " vs " ++
            (r2.runner_name.getD "None"),
          back_exchange := odds1.bookmaker.getD "Bookmaker 1",
          lay_exchange := odds2.bookmaker.getD "Bookmaker 2",
          back_odds := b1,
          lay_odds := b2,
          stake := S * b2 / (b1 + b2),
          lay_stake := S - S * b2 / (b1 + b2),
          profit := S * b2 / (b1 + b2) * b1 - S,
          profit_percentage := (S * b2 / (b1 + b2) * b1 - S) / S * 100,
          back_market_id := m1,
          lay_market_id := m2,
          back_selection_id := pair.1,
          lay_selection_id := pair.2,
          back_commission := 0,
          lay_commission := 0,
          back_platform := "oddsapi",
          lay_platform := "oddsapi",
          hedge_type := HedgeType.bookmaker_bookmaker,
          is_multi_leg := true,
          leg_count := 2,
          opposing_selections := some [
            (r1.runner_name, S * b2 / (b1 + b2), b1),
            (r2.runner_name, S - S * b2 / (b1 + b2), b2)],
          total_liability := S,
          max_return := max (S * b2 / (b1 + b2) * b1)
            ((S - S * b2 / (b1 + b2)) * b2),
          min_profit := S * b2 / (b1 + b2) * b1 - S })
      else Except.ok none) := by
    simp only [analyze_bookmaker_bookmaker_pair, hr1, hr2, ho1, ho2,
      if_pos hguard, if_neg hS0, hmin]
  refine ⟨hret, ?_, ?_⟩
  · intro o ho
    rw [heval] at ho
    by_cases hpos : 0 < S * b2 / (b1 + b2) * b1 - S
    · rw [if_pos hpos] at ho
      injection ho with ho1
      injection ho1 with ho2
      subst ho2
      exact ⟨rfl, rfl, rfl, hpos⟩
    · rw [if_neg hpos] at ho
      simp at ho
  · intro hle
    rw [heval, if_neg (not_lt.mpr hle)]

/-- Claim C6 witness: concrete opposing odds 3.0 and 2.0 with stake
100. -/
theorem bookmaker_bookmaker_arbitrage_witness :
    ((100:ℚ) * 2 / (3 + 2) * 3 = (100 - 100 * 2 / (3 + 2)) * 2) ∧
    (∀ o : EnhancedHedgeOpportunity,
      analyze_bookmaker_bookmaker_pair bb_demo_odds1 bb_demo_odds2 "m1" "m2"
        100 (some "s1", some "s2") = Except.ok (some o) →
      o.stake = 100 * 2 / (3 + 2) ∧ o.lay_stake = 100 - 100 * 2 / (3 + 2) ∧
      o.profit = 100 * 2 / (3 + 2) * 3 - 100 ∧ 0 < o.profit) ∧
    ((100:ℚ) * 2 / (3 + 2) * 3 - 100 ≤ 0 →
      analyze_bookmaker_bookmaker_pair bb_demo_odds1 bb_demo_odds2 "m1" "m2"
        100 (some "s1", some "s2") = Except.ok none) :=
  bookmaker_bookmaker_arbitrage bb_demo_odds1 bb_demo_odds2 "m1" "m2" 100 3 2
    (some "s1", some "s2") bb_demo_runner1 bb_demo_runner2
    (by simp [bb_demo_odds1, bb_demo_runner1, runners_by_id])
    (by simp [bb_demo_odds2, bb_demo_runner2, runners_by_id])
    rfl rfl (by norm_num) (by norm_num) (by norm_num)

lemma collect_pairs_mem {α β : Type} (f : α → Except String (Option β)) :
    ∀ (l : List α) (res : List β), collect_pairs f l = Except.ok res →
      ∀ y ∈ res, ∃ x ∈ l, f x = Except.ok (some y) := by
  intro l
  induction l with
  | nil =>
      intro res h y hy
      simp only [collect_pairs] at h
      injection h with h1
      subst h1
      cases hy
  | cons x rest ih =>
      intro res h y hy
      simp only [collect_pairs] at h
      split at h
      · cases h
      · obtain ⟨x2, hx2, hfx2⟩ := ih res h y hy
        exact ⟨x2, List.mem_cons_of_mem _ hx2, hfx2⟩
      · rename_i y0 hfx
        split at h
        · cases h
        · rename_i l0 hrest
          injection h with h1
          subst h1
          rcases List.mem_cons.mp hy with rfl | hmem
          · exact ⟨x, List.mem_cons_self _ _, hfx⟩
          · obtain ⟨x2, hx2, hfx2⟩ := ih l0 hrest y hmem
            exact ⟨x2, List.mem_cons_of_mem _ hx2, hfx2⟩

lemma fcpo_pass1_body_pos {bo so : OddsData} {ei : EventInfo} {m1 m2 : String}
    {stake bc sc : ℚ} {pr : Option String × Option String}
    {op : HedgeOpportunity}
    (h : fcpo_pass1_body bo so ei m1 m2 stake bc sc pr = Except.ok (some op)) :
    0 < op.profit := by
  simp only [fcpo_pass1_body] at h
  repeat' split at h
  all_goals
    first
      | (injection h with h1; injection h1 with h2; subst h2; rename_i hpos;
         exact hpos)
      | exact absurd h (by simp)

lemma fcpo_pass2_body_pos {bo so : OddsData} {ei : EventInfo} {m1 m2 : String}
    {stake bc sc : ℚ} {pr : Option String × Option String}
    {op : HedgeOpportunity}
    (h : fcpo_pass2_body bo so ei m1 m2 stake bc sc pr = Except.ok (some op)) :
    0 < op.profit := by
  simp only [fcpo_pass2_body] at h
  repeat' split at h
  all_goals
    first
      | (injection h with h1; injection h1 with h2; subst h2; rename_i hpos;
         exact hpos)
      | exact absurd h (by simp)

lemma foae_body_pos {ao eo : OddsData} {ei : EventInfo} {m1 m2 pf : String}
    {stake ec : ℚ} {pr : Option String × Option String}
    {op : HedgeOpportunity}
    (h : foae_body ao eo ei m1 m2 pf stake ec pr = Except.ok (some op)) :
    0 < op.profit := by
  simp only [foae_body] at h
  repeat' split at h
  all_goals
    first
      | (injection h with h1; injection h1 with h2; subst h2; rename_i hpos;
         exact hpos)
      | exact absurd h (by simp)

lemma aei_body_pos {en mid : String} {od : OddsData} {stake comm : ℚ}
    {runner : Runner} {op : EnhancedHedgeOpportunity}
    (h : aei_body en mid od stake comm runner = Except.ok (some op)) :
    0 < op.profit := by
  simp only [aei_body] at h
  repeat' split at h
  all_goals
    first
      | (injection h with h1; injection h1 with h2; subst h2; rename_i hpos;
         exact hpos)
      | exact absurd h (by simp)

lemma ace_pass1_body_pos {bo so : OddsData} {m1 m2 : String} {stake : ℚ}
    {pr : Option String × Option String} {op : EnhancedHedgeOpportunity}
    (h : ace_pass1_body bo so m1 m2 stake pr = Except.ok (some op)) :
    0 < op.profit := by
  simp only [ace_pass1_body] at h
  repeat' split at h
  all_goals
    first
      | (injection h with h1; injection h1 with h2; subst h2; rename_i hpos;
         exact hpos)
      | exact absurd h (by simp)

lemma ace_pass2_body_pos {bo so : OddsData} {m1 m2 : String} {stake : ℚ}
    {pr : Option String × Option String} {op : EnhancedHedgeOpportunity}
    (h : ace_pass2_body bo so m1 m2 stake pr = Except.ok (some op)) :
    0 < op.profit := by
  simp only [ace_pass2_body] at h
  repeat' split at h
  all_goals
    first
      | (injection h with h1; injection h1 with h2; subst h2; rename_i hpos;
         exact hpos)
      | exact absurd h (by simp)

lemma abe_body_pos {bo eo : OddsData} {m1 m2 en : String} {stake comm : ℚ}
    {pr : Option String × Option String} {op : EnhancedHedgeOpportunity}
    (h : abe_body bo eo m1 m2 en stake comm pr = Except.ok (some op)) :
    0 < op.profit := by
  simp only [abe_body] at h
  repeat' split at h
  all_goals
    first
      | (injection h with h1; injection h1 with h2; subst h2; rename_i hpos;
         exact hpos)
      | exact absurd h (by simp)

lemma find_cross_platform_pos {m1 m2 : String} {bo so : OddsData}
    {rmatches : List (Option String × Option String)} {ei : EventInfo}
    {stake bc sc : ℚ} {l : List HedgeOpportunity}
    (h : find_cross_platform_opportunities m1 m2 bo so rmatches ei stake bc sc =
      Except.ok l) : ∀ op ∈ l, 0 < op.profit := by
  simp only [find_cross_platform_opportunities] at h
  split at h
  · exact absurd h (by simp)
  · rename_i ops1 hops1
    split at h
    · exact absurd h (by simp)
    · rename_i ops2 hops2
      injection h with hl
      subst hl
      intro op hop
      rw [List.mem_mergeSort] at hop
      rcases List.mem_append.mp hop with hm | hm
      · obtain ⟨x, _, hfx⟩ := collect_pairs_mem _ _ _ hops1 op hm
        exact fcpo_pass1_body_pos hfx
      · obtain ⟨x, _, hfx⟩ := collect_pairs_mem _ _ _ hops2 op hm
        exact fcpo_pass2_body_pos hfx

lemma find_odds_api_exchange_pos {m1 m2 pf : String} {ao eo : OddsData}
    {rmatches : List (Option String × Option String)} {ei : EventInfo}
    {stake bc sc : ℚ} {l : List HedgeOpportunity}
    (h : find_odds_api_exchange_opportunities m1 m2 pf ao eo rmatches ei stake
      bc sc = Except.ok l) : ∀ op ∈ l, 0 < op.profit := by
  simp only [find_odds_api_exchange_opportunities] at h
  split at h
  · exact absurd h (by simp)
  · rename_i ops hops
    injection h with hl
    subst hl
    intro op hop
    rw [List.mem_mergeSort] at hop
    obtain ⟨x, _, hfx⟩ := collect_pairs_mem _ _ _ hops op hop
    exact foae_body_pos hfx

lemma analyze_exchange_internal_pos {en mid : String} {od : OddsData}
    {stake : ℚ} {l : List EnhancedHedgeOpportunity}
    (h : analyze_exchange_internal en mid od stake = Except.ok l) :
    ∀ op ∈ l, 0 < op.profit := by
  simp only [analyze_exchange_internal] at h
  split at h
  · split at h
    · exact absurd h (by simp)
    · rename_i ops hops
      injection h with hl
      subst hl
      intro op hop
      rw [List.mem_mergeSort] at hop
      obtain ⟨x, _, hfx⟩ := collect_pairs_mem _ _ _ hops op hop
      exact aei_body_pos hfx
  · injection h with hl
    subst hl
    intro op hop
    cases hop

lemma analyze_cross_exchange_pos {m1 m2 : String} {bo so : OddsData}
    {rmatches : List (Option String × Option String)} {stake : ℚ}
    {l : List EnhancedHedgeOpportunity}
    (h : analyze_cross_exchange m1 m2 bo so rmatches stake = Except.ok l) :
    ∀ op ∈ l, 0 < op.profit := by
  simp only [analyze_cross_exchange] at h
  split at h
  · exact absurd h (by simp)
  · rename_i ops1 hops1
    split at h
    · exact absurd h (by simp)
    · rename_i ops2 hops2
      injection h with hl
      subst hl
      intro op hop
      rw [List.mem_mergeSort] at hop
      rcases List.mem_append.mp hop with hm | hm
      · obtain ⟨x, _, hfx⟩ := collect_pairs_mem _ _ _ hops1 op hm
        exact ace_pass1_body_pos hfx
      · obtain ⟨x, _, hfx⟩ := collect_pairs_mem _ _ _ hops2 op hm
        exact ace_pass2_body_pos hfx

lemma analyze_bookmaker_exchange_pos {m1 m2 en : String} {bo eo : OddsData}
    {rmatches : List (Option String × Option String)} {stake : ℚ}
    {l : List EnhancedHedgeOpportunity}
    (h : analyze_bookmaker_exchange m1 m2 en bo eo rmatches stake =
      Except.ok l) : ∀ op ∈ l, 0 < op.profit := by
  simp only [analyze_bookmaker_exchange] at h
  split at h
  · split at h
    · exact absurd h (by simp)
    · rename_i ops hops
      injection h with hl
      subst hl
      intro op hop
      rw [List.mem_mergeSort] at hop
      obtain ⟨x, _, hfx⟩ := collect_pairs_mem _ _ _ hops op hop
      exact abe_body_pos hfx
  · injection h with hl
    subst hl
    intro op hop
    cases hop

/-- Claim C9: every opportunity emitted by the scan and analysis methods
(find_cross_platform_opportunities, find_odds_api_exchange_opportunities,
analyze_exchange_internal, analyze_cross_exchange,
analyze_bookmaker_exchange) has strictly positive profit: each method
discards any calculate_hedge result whose profit is not positive before
constructing an opportunity. -/
theorem scans_emit_only_positive_profit :
    (∀ (m1 m2 : String) (bo so : OddsData)
        (rmatches : List (Option String × Option String)) (ei : EventInfo)
        (stake bc sc : ℚ) (l : List HedgeOpportunity),
      find_cross_platform_opportunities m1 m2 bo so rmatches ei stake bc sc =
        Except.ok l → ∀ op ∈ l, 0 < op.profit) ∧
    (∀ (m1 m2 pf : String) (ao eo : OddsData)
        (rmatches : List (Option String × Option String)) (ei : EventInfo)
        (stake bc sc : ℚ) (l : List HedgeOpportunity),
      find_odds_api_exchange_opportunities m1 m2 pf ao eo rmatches ei stake
        bc sc = Except.ok l → ∀ op ∈ l, 0 < op.profit) ∧
    (∀ (en mid : String) (od : OddsData) (stake : ℚ)
        (l : List EnhancedHedgeOpportunity),
      analyze_exchange_internal en mid od stake = Except.ok l →
        ∀ op ∈ l, 0 < op.profit) ∧
    (∀ (m1 m2 : String) (bo so : OddsData)
        (rmatches : List (Option String × Option String)) (stake : ℚ)
        (l : List EnhancedHedgeOpportunity),
      analyze_cross_exchange m1 m2 bo so rmatches stake = Except.ok l →
        ∀ op ∈ l, 0 < op.profit) ∧
    (∀ (m1 m2 en : String) (bo eo : OddsData)
        (rmatches : List (Option String × Option String)) (stake : ℚ)
        (l : List EnhancedHedgeOpportunity),
      analyze_bookmaker_exchange m1 m2 en bo eo rmatches stake = Except.ok l →
        ∀ op ∈ l, 0 < op.profit) :=
  ⟨fun _ _ _ _ _ _ _ _ _ _ h => find_cross_platform_pos h,
   fun _ _ _ _ _ _ _ _ _ _ _ h => find_odds_api_exchange_pos h,
   fun _ _ _ _ _ h => analyze_exchange_internal_pos h,
   fun _ _ _ _ _ _ _ h => analyze_cross_exchange_pos h,
   fun _ _ _ _ _ _ _ _ h => analyze_bookmaker_exchange_pos h⟩

lemma fcpo_demo_hedge :
    calculate_hedge (some (11/5)) (some 2) 100 (5/100) (2/100) =
      Except.ok (some ⟨110, 110, 4, 39/5, 4, 4⟩) := by
  have hg : ¬ ((some (11/5) : Option ℚ) = none ∨
      (some (11/5) : Option ℚ) = some 0 ∨ (some 2 : Option ℚ) = none ∨
      (some 2 : Option ℚ) = some 0 ∨ (11:ℚ)/5 ≤ 0 ∨ (2:ℚ) ≤ 0 ∨
      (2:ℚ) ≤ 1) := by
    push_neg
    refine ⟨by simp, by simp, by simp, by simp, by norm_num, by norm_num,
      by norm_num⟩
  simp only [calculate_hedge, Option.getD_some, if_neg hg]
  rw [if_neg (by norm_num : ¬ ((100:ℚ) = 0))]
  norm_num [round2, roundHalfEven, min_def]

lemma fcpo_demo_body1 :
    fcpo_pass1_body fcpo_demo_betfair fcpo_demo_smarkets ⟨some "E"⟩ "bm" "sm"
      100 (5/100) (2/100) (some "b1", some "s1") =
      Except.ok (some fcpo_demo_opp) := by
  have hfind1 : runners_by_id fcpo_demo_betfair.runners (some "b1") =
      some fcpo_demo_bf_runner := by
    simp [runners_by_id, fcpo_demo_betfair, fcpo_demo_bf_runner]
  have hfind2 : runners_by_id fcpo_demo_smarkets.runners (some "s1") =
      some fcpo_demo_sm_runner := by
    simp [runners_by_id, fcpo_demo_smarkets, fcpo_demo_sm_runner]
  simp only [fcpo_pass1_body, hfind1, hfind2, fcpo_demo_bf_runner,
    fcpo_demo_sm_runner]
  rw [if_pos (by norm_num :
    (11:ℚ)/5 ≠ 0 ∧ (2:ℚ) ≠ 0 ∧ (0:ℚ) < 11/5 ∧ (0:ℚ) < 2), fcpo_demo_hedge]
  norm_num [fcpo_demo_opp]

lemma fcpo_demo_body2 :
    fcpo_pass2_body fcpo_demo_betfair fcpo_demo_smarkets ⟨some "E"⟩ "bm" "sm"
      100 (5/100) (2/100) (some "b1", some "s1") = Except.ok none := by
  simp [fcpo_pass2_body, runners_by_id, fcpo_demo_betfair, fcpo_demo_smarkets,
    fcpo_demo_bf_runner, fcpo_demo_sm_runner]

lemma fcpo_demo_eval :
    find_cross_platform_opportunities "bm" "sm" fcpo_demo_betfair
      fcpo_demo_smarkets [(some "b1", some "s1")] ⟨some "E"⟩ 100 (5/100)
      (2/100) = Except.ok [fcpo_demo_opp] := by
  simp only [find_cross_platform_opportunities, collect_pairs,
    fcpo_demo_body1, fcpo_demo_body2, List.nil_append, List.append_nil,
    List.mergeSort_singleton]

/-- Claim C9 witness: on the concrete crossed market the single emitted
opportunity has strictly positive profit. -/
theorem scans_emit_only_positive_profit_witness : 0 < fcpo_demo_opp.profit :=
  scans_emit_only_positive_profit.1 "bm" "sm" fcpo_demo_betfair
    fcpo_demo_smarkets [(some "b1", some "s1")] ⟨some "E"⟩ 100 (5/100) (2/100)
    [fcpo_demo_opp] fcpo_demo_eval fcpo_demo_opp (List.mem_cons_self _ _)

lemma best_match_aux_snd_le (bname : String) (t : ℚ) :
    ∀ (L : List Runner) (acc : Option Runner × ℚ),
      acc.2 ≤ (best_match_aux bname t L acc).2 := by
  intro L
  induction L with
  | nil => intro acc; exact le_refl _
  | cons sr rest ih =>
      intro acc
      simp only [best_match_aux]
      refine le_trans ?_ (ih _)
      split
      · rename_i hc
        exact le_of_lt hc.1
      · exact le_refl _

lemma best_match_aux_bound (bname : String) (t : ℚ) :
    ∀ (L : List Runner) (acc : Option Runner × ℚ) (y : Runner), y ∈ L →
      t ≤ runner_similarity bname y →
      runner_similarity bname y ≤ (best_match_aux bname t L acc).2 := by
  intro L
  induction L with
  | nil => intro acc y hy; cases hy
  | cons sr rest ih =>
      intro acc y hy hty
      rcases List.mem_cons.mp hy with rfl | hmem
      · simp only [best_match_aux]
        refine le_trans ?_ (best_match_aux_snd_le bname t rest _)
        split
        · exact le_refl _
        · rename_i hc
          rcases not_and_or.mp hc with h1 | h2
          · exact le_of_not_lt h1
          · exact absurd hty h2
      · simp only [best_match_aux]
        exact ih _ y hmem hty

lemma best_match_aux_fst (bname : String) (t : ℚ) :
    ∀ (L : List Runner) (acc : Option Runner × ℚ) (r : Runner),
      (best_match_aux bname t L acc).1 = some r →
      (acc.1 = some r ∧ (best_match_aux bname t L acc).2 = acc.2) ∨
      (∃ pre post, L = pre ++ r :: post ∧
        (best_match_aux bname t L acc).2 = runner_similarity bname r ∧
        t ≤ runner_similarity bname r ∧
        acc.2 < runner_similarity bname r ∧
        ∀ y ∈ pre, runner_similarity bname y < runner_similarity bname r) := by
  intro L
  induction L with
  | nil => intro acc r h; exact Or.inl ⟨h, rfl⟩
  | cons sr rest ih =>
      intro acc r h
      simp only [best_match_aux] at h ⊢
      by_cases hc : acc.2 < runner_similarity bname sr ∧
          t ≤ runner_similarity bname sr
      · rw [if_pos hc] at h ⊢
        rcases ih (some sr, runner_similarity bname sr) r h with ⟨ha, hs⟩ | hex
        · injection ha with ha2
          subst ha2
          refine Or.inr ⟨[], rest, rfl, ?_, hc.2, hc.1, by intro y hy; cases hy⟩
          simpa using hs
        · obtain ⟨pre, post, hL, hs, hts, hlt, hpre⟩ := hex
          refine Or.inr ⟨sr :: pre, post, by rw [hL, List.cons_append], hs, hts, ?_, ?_⟩
          · exact lt_trans hc.1 (by simpa using hlt)
          · intro y hy
            rcases List.mem_cons.mp hy with rfl | hmem
            · simpa using hlt
            · exact hpre y hmem
      · rw [if_neg hc] at h ⊢
        rcases ih acc r h with ⟨ha, hs⟩ | hex
        · exact Or.inl ⟨ha, hs⟩
        · obtain ⟨pre, post, hL, hs, hts, hlt, hpre⟩ := hex
          refine Or.inr ⟨sr :: pre, post, by rw [hL, List.cons_append], hs, hts, hlt, ?_⟩
          intro y hy
          rcases List.mem_cons.mp hy with rfl | hmem
          · rcases not_and_or.mp hc with h1 | h2
            · exact lt_of_le_of_lt (le_of_not_lt h1) hlt
            · exact lt_of_lt_of_le (lt_of_not_le h2) hts
          · exact hpre y hmem

lemma c8_norm_arsenal : _normalize_team_name "Arsenal" = "arsenal" := by decide

lemma c8_sim_arsenal : _calculate_similarity "arsenal" "arsenal" = 1 := by
  have hm : sm_matches "arsenal".data "arsenal".data = 7 := by decide
  have hl : ("arsenal".data).length = 7 := by decide
  simp only [_calculate_similarity, sm_similarity, hm, hl]
  norm_num

lemma c8_runner_sim : runner_similarity "arsenal" c8_demo_b1 = 1 := by
  simp only [runner_similarity, c8_demo_b1, Option.getD_some, c8_norm_arsenal,
    c8_sim_arsenal]

lemma c8_demo_best :
    best_runner_match [c8_demo_b1] "arsenal" (7/10) = some c8_demo_b1 := by
  simp only [best_runner_match, best_match_aux, c8_runner_sim]
  rw [if_pos (by norm_num : ((none : Option Runner), (0:ℚ)).2 < 1 ∧
    (7:ℚ)/10 ≤ 1)]

lemma c8_demo_eval :
    find_runner_matches [c8_demo_a1, c8_demo_a2] [c8_demo_b1] (7/10) =
      [(some "a1", some "b1"), (some "a2", some "b1")] := by
  simp only [find_runner_matches, List.foldl, c8_demo_a1, c8_demo_a2,
    Option.getD_some, c8_norm_arsenal, c8_demo_best]
  simp [dict_insert, c8_demo_b1]

/-- Claim C8: find_runner_matches maps each selection in list A to the
selection in list B with the highest normalized-name similarity at or
above the threshold, ties broken in favour of the first-seen B
selection (a later B selection replaces the current best only with
strictly greater similarity); no uniqueness constraint is enforced on
the B side, and on the concrete input two distinct A selections map to
the same B selection. -/
theorem find_runner_matches_spec :
    (∀ (B : List Runner) (bname : String) (t : ℚ) (r : Runner),
      best_runner_match B bname t = some r →
      ∃ pre post, B = pre ++ r :: post ∧
        t ≤ runner_similarity bname r ∧
        (∀ y ∈ B, runner_similarity bname y ≤ runner_similarity bname r) ∧
        (∀ y ∈ pre, runner_similarity bname y < runner_similarity bname r)) ∧
    find_runner_matches [c8_demo_a1, c8_demo_a2] [c8_demo_b1] (7/10) =
      [(some "a1", some "b1"), (some "a2", some "b1")] := by
  constructor
  · intro B bname t r h
    unfold best_runner_match at h
    rcases best_match_aux_fst bname t B ((none : Option Runner), (0:ℚ)) r h with
      ⟨ha, _⟩ | hex
    · exact absurd ha (by simp)
    · obtain ⟨pre, post, hL, hs, hts, _, hpre⟩ := hex
      refine ⟨pre, post, hL, hts, ?_, hpre⟩
      intro y hy
      by_cases hty : t ≤ runner_similarity bname y
      · have hb := best_match_aux_bound bname t B
          ((none : Option Runner), (0:ℚ)) y hy hty
        rw [hs] at hb
        exact hb
      · exact le_trans (le_of_lt (lt_of_not_le hty)) hts
  · exact c8_demo_eval

/-- Claim C8 witness: the single Smarkets runner is selected for the
normalized name arsenal at threshold 0.7, with the argmax and first-seen
properties instantiated. -/
theorem find_runner_matches_spec_witness :
    ∃ pre post, [c8_demo_b1] = pre ++ c8_demo_b1 :: post ∧
      (7:ℚ)/10 ≤ runner_similarity "arsenal" c8_demo_b1 ∧
      (∀ y ∈ [c8_demo_b1],
        runner_similarity "arsenal" y ≤ runner_similarity "arsenal" c8_demo_b1) ∧
      (∀ y ∈ pre,
        runner_similarity "arsenal" y < runner_similarity "arsenal" c8_demo_b1) :=
  find_runner_matches_spec.1 [c8_demo_b1] "arsenal" (7/10) c8_demo_b1
    c8_demo_best
